import Mathlib

/-!
Shallow embedding of the crypto-auction engine (TypeScript sources:
`src/services/BalanceService.ts`, `src/services/BidService.ts`,
`src/services/RoundService.ts`, `src/services/AuctionService.ts`,
`src/utils/lock.ts`, `src/routes/api.ts`).

Documents are modelled as records, MongoDB collections as lists, and each
service method as a pure function on a `DB` state.  A method that runs in a
mongoose session and can `throw` is modelled as `Except String DB`: the
`.error` case corresponds to `session.abortTransaction()`, i.e. the committed
state is unchanged.  Monetary values are `Int` (JS numbers used as integers),
`avgPrice` is `ℚ` (JS division), timestamps are `Nat` milliseconds.
-/

namespace AuctionSys

/-- Ledger entry kinds, from the `Transaction` mongoose model. -/
inductive TxType
  | deposit
  | freeze
  | unfreeze
  | win
  | refund
deriving DecidableEq, Repr

/-- A ledger entry (`Transaction` document). Append-only. -/
structure Tx where
  userId : Nat
  txType : TxType
  amount : Int
  auctionId : Option Nat
  bidId : Option Nat
  balanceBefore : Int
  balanceAfter : Int
deriving DecidableEq, Repr

/-- A `User` document: `balance` is the available balance, `frozenBalance`
the frozen balance. -/
structure UserDoc where
  userId : Nat
  username : String
  balance : Int
  frozenBalance : Int
deriving DecidableEq, Repr

/-- Bid status, from the `Bid` mongoose model. -/
inductive BidStatus
  | active
  | won
  | refunded
deriving DecidableEq, Repr

/-- A `Bid` document. -/
structure BidDoc where
  bidId : Nat
  auctionId : Nat
  roundId : Nat
  userId : Nat
  amount : Int
  status : BidStatus
  wonInRound : Option Nat
  itemNumber : Option Int
  createdAt : Nat
deriving DecidableEq, Repr

/-- Round status, from the `Round` mongoose model. -/
inductive RoundStatus
  | pending
  | active
  | processing
  | completed
deriving DecidableEq, Repr

/-- A `Round` document. -/
structure RoundDoc where
  roundId : Nat
  auctionId : Nat
  roundNumber : Nat
  startAt : Nat
  endAt : Nat
  originalEndAt : Nat
  status : RoundStatus
  winnersCount : Nat
deriving DecidableEq, Repr

/-- Auction status, from the `Auction` mongoose model. -/
inductive AuctionStatus
  | pending
  | active
  | completed
deriving DecidableEq, Repr

/-- An `Auction` document. -/
structure AuctionDoc where
  auctionId : Nat
  status : AuctionStatus
  totalItems : Nat
  totalRounds : Nat
  itemsPerRound : Nat
  minBid : Int
  currentRound : Nat
  distributedItems : Nat
  avgPrice : ℚ
  otherRoundDuration : Nat
deriving DecidableEq, Repr

/-- The persistent state: the five collections, the Bull `close-round` jobs
(job id, scheduled run time), and a fresh-id source for created documents. -/
structure DB where
  users : List UserDoc
  bids : List BidDoc
  rounds : List RoundDoc
  auctions : List AuctionDoc
  txs : List Tx
  jobs : List (String × Nat)
  nextId : Nat
deriving DecidableEq, Repr

/-- Anti-sniping configuration (`config.auction` in `config/env.ts`). -/
structure Config where
  antiSnipingWindow : Int
  antiSnipingExtension : Nat
  antiSnipingThreshold : Nat
deriving DecidableEq, Repr

/-! ### Collection lookups and pointwise updates -/

/-- `User.findById`. -/
def findUser : List UserDoc → Nat → Option UserDoc
  | [], _ => none
  | u :: us, uid => if u.userId = uid then some u else findUser us uid

/-- `Auction.findById`. -/
def findAuction : List AuctionDoc → Nat → Option AuctionDoc
  | [], _ => none
  | a :: as_, aid => if a.auctionId = aid then some a else findAuction as_ aid

/-- `Round.findById`. -/
def findRound : List RoundDoc → Nat → Option RoundDoc
  | [], _ => none
  | r :: rs, rid => if r.roundId = rid then some r else findRound rs rid

/-- `Round.findOne({auctionId, status: active})`. -/
def findActiveRoundOfAuction : List RoundDoc → Nat → Option RoundDoc
  | [], _ => none
  | r :: rs, aid =>
    if r.auctionId = aid ∧ r.status = RoundStatus.active then some r
    else findActiveRoundOfAuction rs aid

/-- `Round.findOneAndUpdate({_id: rid, status: active}, ...)` lookup part. -/
def findActiveRoundById : List RoundDoc → Nat → Option RoundDoc
  | [], _ => none
  | r :: rs, rid =>
    if r.roundId = rid ∧ r.status = RoundStatus.active then some r
    else findActiveRoundById rs rid

/-- `Bid.findOne({auctionId, roundId, userId, status: active})`. -/
def findActiveBid : List BidDoc → Nat → Nat → Nat → Option BidDoc
  | [], _, _, _ => none
  | b :: bs, aid, rid, uid =>
    if b.auctionId = aid ∧ b.roundId = rid ∧ b.userId = uid ∧ b.status = BidStatus.active then
      some b
    else findActiveBid bs aid rid uid

/-- Lookup a bid by `_id`. -/
def findBid : List BidDoc → Nat → Option BidDoc
  | [], _ => none
  | b :: bs, bid => if b.bidId = bid then some b else findBid bs bid

/-- Save a user document by `_id`: transform every matching record. -/
def updUsers (f : UserDoc → UserDoc) (uid : Nat) (us : List UserDoc) : List UserDoc :=
  us.map (fun u => if u.userId = uid then f u else u)

/-- Save a bid document by `_id`. -/
def updBids (f : BidDoc → BidDoc) (bid : Nat) (bs : List BidDoc) : List BidDoc :=
  bs.map (fun b => if b.bidId = bid then f b else b)

/-- Save a round document by `_id`. -/
def updRounds (f : RoundDoc → RoundDoc) (rid : Nat) (rs : List RoundDoc) : List RoundDoc :=
  rs.map (fun r => if r.roundId = rid then f r else r)

/-- Save an auction document by `_id`. -/
def updAuctions (f : AuctionDoc → AuctionDoc) (aid : Nat) (as_ : List AuctionDoc) :
    List AuctionDoc :=
  as_.map (fun a => if a.auctionId = aid then f a else a)

/-- `Round.updateOne({_id: rid}, {$set: {status}})`. -/
def setRoundStatus (db : DB) (rid : Nat) (st : RoundStatus) : DB :=
  { db with rounds := updRounds (fun r => { r with status := st }) rid db.rounds }

/-! ### BalanceService (`src/services/BalanceService.ts`) -/

/-- `BalanceService.deposit`: `balance += amount`, write a `deposit` ledger
entry. Throws `User not found` if the user is missing. -/
def deposit (db : DB) (uid : Nat) (amount : Int) : Except String DB :=
  match findUser db.users uid with
  | none => .error "User not found"
  | some u =>
    .ok { db with
      users := updUsers (fun v => { v with balance := v.balance + amount }) uid db.users,
      txs := db.txs ++ [{ userId := uid, txType := .deposit, amount := amount,
                          auctionId := none, bidId := none,
                          balanceBefore := u.balance, balanceAfter := u.balance + amount }] }

/-- `BalanceService.freeze`: requires `balance ≥ amount`; moves `amount` from
`balance` to `frozenBalance` and writes a `freeze` ledger entry. -/
def freeze (db : DB) (uid : Nat) (amount : Int) (aid bid : Nat) : Except String DB :=
  match findUser db.users uid with
  | none => .error "User not found"
  | some u =>
    if u.balance < amount then .error "Insufficient balance"
    else
      .ok { db with
        users := updUsers (fun v =>
          { v with balance := v.balance - amount,
                   frozenBalance := v.frozenBalance + amount }) uid db.users,
        txs := db.txs ++ [{ userId := uid, txType := .freeze, amount := amount,
                            auctionId := some aid, bidId := some bid,
                            balanceBefore := u.balance, balanceAfter := u.balance - amount }] }

/-- `BalanceService.unfreeze`: requires `frozenBalance ≥ amount`; moves
`amount` back from `frozenBalance` to `balance`. -/
def unfreeze (db : DB) (uid : Nat) (amount : Int) (aid bid : Nat) : Except String DB :=
  match findUser db.users uid with
  | none => .error "User not found"
  | some u =>
    if u.frozenBalance < amount then .error "Insufficient frozen balance"
    else
      .ok { db with
        users := updUsers (fun v =>
          { v with frozenBalance := v.frozenBalance - amount,
                   balance := v.balance + amount }) uid db.users,
        txs := db.txs ++ [{ userId := uid, txType := .unfreeze, amount := amount,
                            auctionId := some aid, bidId := some bid,
                            balanceBefore := u.balance, balanceAfter := u.balance + amount }] }

/-- `BalanceService.processWin`: requires `frozenBalance ≥ amount`; the frozen
amount is spent (`frozenBalance -= amount`), a `win` ledger entry is written. -/
def processWin (db : DB) (uid : Nat) (amount : Int) (aid bid : Nat) : Except String DB :=
  match findUser db.users uid with
  | none => .error "User not found"
  | some u =>
    if u.frozenBalance < amount then .error "Insufficient frozen balance"
    else
      .ok { db with
        users := updUsers (fun v =>
          { v with frozenBalance := v.frozenBalance - amount }) uid db.users,
        txs := db.txs ++ [{ userId := uid, txType := .win, amount := amount,
                            auctionId := some aid, bidId := some bid,
                            balanceBefore := u.balance, balanceAfter := u.balance }] }

/-- `BalanceService.refund`: requires `frozenBalance ≥ amount`; moves `amount`
from `frozenBalance` back to `balance` and writes a `refund` ledger entry. -/
def refund (db : DB) (uid : Nat) (amount : Int) (aid bid : Nat) : Except String DB :=
  match findUser db.users uid with
  | none => .error "User not found"
  | some u =>
    if u.frozenBalance < amount then .error "Insufficient frozen balance"
    else
      .ok { db with
        users := updUsers (fun v =>
          { v with frozenBalance := v.frozenBalance - amount,
                   balance := v.balance + amount }) uid db.users,
        txs := db.txs ++ [{ userId := uid, txType := .refund, amount := amount,
                            auctionId := some aid, bidId := some bid,
                            balanceBefore := u.balance, balanceAfter := u.balance + amount }] }

/-! ### Bid ordering (`.sort({ amount: -1, createdAt: 1 })`) -/

/-- The ranking order used by every ranked read and by settlement:
amount descending, then `createdAt` ascending. -/
def bidPrec (a b : BidDoc) : Prop :=
  b.amount < a.amount ∨ (a.amount = b.amount ∧ a.createdAt ≤ b.createdAt)

instance (a b : BidDoc) : Decidable (bidPrec a b) := by
  unfold bidPrec; infer_instance

/-- `Bid.find(...).sort({ amount: -1, createdAt: 1 })`: sort by `bidPrec`. -/
def sortBids (bs : List BidDoc) : List BidDoc :=
  bs.insertionSort bidPrec

/-- `Bid.find({roundId, status: 'active'})`. -/
def activeBidsOfRound (bs : List BidDoc) (rid : Nat) : List BidDoc :=
  bs.filter (fun b => decide (b.roundId = rid ∧ b.status = BidStatus.active))

/-! ### Bull job queue (`src/jobs/queues.ts`), close-round jobs only -/

/-- The job id `round-{roundId}`. -/
def roundJobId (rid : Nat) : String := "round-" ++ toString rid

/-- `scheduleRoundProcessing(roundId, endAt)`: add a delayed job that fires
at `endAt`. -/
def scheduleRoundProcessing (jobs : List (String × Nat)) (rid : Nat) (endAt : Nat) :
    List (String × Nat) :=
  jobs ++ [(roundJobId rid, endAt)]

/-- `rescheduleRoundProcessing(roundId, newEndAt)`: remove the existing
`round-{roundId}` job, then schedule a new one at `newEndAt`. -/
def rescheduleRoundProcessing (jobs : List (String × Nat)) (rid : Nat) (newEndAt : Nat) :
    List (String × Nat) :=
  scheduleRoundProcessing (jobs.filter (fun j => decide (j.1 ≠ roundJobId rid))) rid newEndAt

/-! ### BidService (`src/services/BidService.ts`) -/

/-- `BidService.checkAntiSniping(round, bid)`, run inside the bid
transaction after the bid write.  Returns the updated state and whether the
extension triggered. -/
def checkAntiSniping (cfg : Config) (now : Nat) (db : DB) (rnd : RoundDoc) (bid : BidDoc) :
    DB × Bool :=
  let timeLeft : Int := (rnd.endAt : Int) - (now : Int)
  if timeLeft > cfg.antiSnipingWindow then (db, false)
  else
    let top := (sortBids (activeBidsOfRound db.bids rnd.roundId)).take cfg.antiSnipingThreshold
    if top.any (fun b => decide (b.bidId = bid.bidId)) then
      let newEndAt := rnd.endAt + cfg.antiSnipingExtension
      let db1 := { db with
        rounds := updRounds (fun r => { r with endAt := newEndAt }) rnd.roundId db.rounds,
        jobs := rescheduleRoundProcessing db.jobs rnd.roundId newEndAt }
      (db1, true)
    else (db, false)

/-- The bid document created on `placeBid`'s new-bid path
(`new Bid({auctionId, roundId, userId, amount, status: 'active'})`). -/
def newBidDoc (db : DB) (uid aid : Nat) (rnd : RoundDoc) (amount : Int) (now : Nat) : BidDoc :=
  { bidId := db.nextId, auctionId := aid, roundId := rnd.roundId, userId := uid,
    amount := amount, status := BidStatus.active, wonInRound := none, itemNumber := none,
    createdAt := now }

/-- The committed result of `placeBid`'s raise path, given the state `dbF`
after the freeze: `existing.amount += amount`, anti-snipe check. -/
def raiseResult (cfg : Config) (now : Nat) (dbF : DB) (rnd : RoundDoc) (eb : BidDoc)
    (amount : Int) : DB × BidDoc × Bool :=
  ((checkAntiSniping cfg now
      { dbF with
        bids := updBids (fun b => { b with amount := eb.amount + amount }) eb.bidId dbF.bids }
      rnd { eb with amount := eb.amount + amount }).1,
   { eb with amount := eb.amount + amount },
   (checkAntiSniping cfg now
      { dbF with
        bids := updBids (fun b => { b with amount := eb.amount + amount }) eb.bidId dbF.bids }
      rnd { eb with amount := eb.amount + amount }).2)

/-- The committed result of `placeBid`'s new-bid path, given the state `dbF`
after the freeze and the created bid `nb`: anti-snipe check, return the bid. -/
def newBidResult (cfg : Config) (now : Nat) (dbF : DB) (rnd : RoundDoc) (nb : BidDoc) :
    DB × BidDoc × Bool :=
  ((checkAntiSniping cfg now dbF rnd nb).1, nb, (checkAntiSniping cfg now dbF rnd nb).2)

/-- `BidService.placeBid(userId, auctionId, amount)`: the admission path.
`.error` models `session.abortTransaction()` (committed state unchanged);
`.ok` returns the committed state, the bid document, and the anti-snipe
flag. -/
def placeBid (cfg : Config) (now : Nat) (db : DB) (uid aid : Nat) (amount : Int) :
    Except String (DB × BidDoc × Bool) :=
  match findAuction db.auctions aid with
  | none => .error "Auction not active"
  | some auction =>
    if auction.status ≠ AuctionStatus.active then .error "Auction not active"
    else if amount < auction.minBid then .error ("Minimum bid is " ++ toString auction.minBid)
    else
      match findActiveRoundOfAuction db.rounds aid with
      | none => .error "No active round"
      | some rnd =>
        if rnd.endAt < now then .error "Round has ended"
        else
          match findUser db.users uid with
          | none => .error "User not found"
          | some user =>
            match findActiveBid db.bids aid rnd.roundId uid with
            | some existingBid =>
              if user.balance < amount then .error "Insufficient balance"
              else
                match freeze db uid amount aid existingBid.bidId with
                | .error e => .error e
                | .ok db1 => .ok (raiseResult cfg now db1 rnd existingBid amount)
            | none =>
              if user.balance < amount then .error "Insufficient balance"
              else
                match freeze { db with
                    bids := db.bids ++ [newBidDoc db uid aid rnd amount now],
                    nextId := db.nextId + 1 }
                  uid amount aid (newBidDoc db uid aid rnd amount now).bidId with
                | .error e => .error e
                | .ok db2 =>
                  .ok (newBidResult cfg now db2 rnd (newBidDoc db uid aid rnd amount now))

/-- A sequence of `placeBid` calls by one user on one auction: each pair is
`(now, amount)`; `none` when some step is rejected. -/
def runRaises (cfg : Config) (uid aid : Nat) : DB → List (Nat × Int) → Option DB
  | db, [] => some db
  | db, p :: ps =>
    match placeBid cfg p.1 db uid aid p.2 with
    | .ok r => runRaises cfg uid aid r.1 ps
    | .error _ => none

/-! ### RoundService settlement (`src/services/RoundService.ts`) -/

/-- The per-bid settlement loop of `processRound`: position `i` in the ranked
list wins while `i < wc` (bid set to `won` with `wonInRound`/`itemNumber`,
wallet `processWin`), later positions are refunded.  Returns the updated
state and `totalSpent`. -/
def settleLoop (rnd : RoundDoc) (base : Int) (wc : Nat) :
    List BidDoc → Nat → DB → Except String (DB × Int)
  | [], _, db => .ok (db, 0)
  | b :: bs, i, db =>
    if i < wc then
      match processWin { db with
          bids := updBids (fun bb =>
            { bb with status := BidStatus.won, wonInRound := some rnd.roundNumber,
                      itemNumber := some (base + (i : Int)) }) b.bidId db.bids }
        b.userId b.amount b.auctionId b.bidId with
      | .error e => .error e
      | .ok db2 =>
        match settleLoop rnd base wc bs (i + 1) db2 with
        | .error e => .error e
        | .ok (db3, ts) => .ok (db3, ts + b.amount)
    else
      match refund { db with
          bids := updBids (fun bb => { bb with status := BidStatus.refunded }) b.bidId db.bids }
        b.userId b.amount b.auctionId b.bidId with
      | .error e => .error e
      | .ok db2 => settleLoop rnd base wc bs (i + 1) db2

/-- `RoundService.processRound(roundId)`.  The CAS
`findOneAndUpdate({_id, status: 'active'}, {$set: {status: 'processing'}})`
gates the settlement; a missing auction reverts the round to `active`; a
thrown error aborts the transaction and resets the round to `active`; on
success the round is `completed`, auction stats are updated, and either the
next round is created and its close job scheduled, or the auction is
completed. -/
def processRound (now : Nat) (db : DB) (rid : Nat) : DB :=
  match findActiveRoundById db.rounds rid with
  | none => db
  | some rnd =>
    let dbP := setRoundStatus db rid RoundStatus.processing
    match findAuction dbP.auctions rnd.auctionId with
    | none => setRoundStatus dbP rid RoundStatus.active
    | some auction =>
      let bids := sortBids (activeBidsOfRound dbP.bids rnd.roundId)
      let winnersCount := min rnd.winnersCount bids.length
      let baseItemNumber : Int := (auction.distributedItems : Int) + 1
      match settleLoop rnd baseItemNumber winnersCount bids 0 dbP with
      | .error _ => setRoundStatus db rid RoundStatus.active
      | .ok (db1, totalSpent) =>
        let newDistributedItems := auction.distributedItems + winnersCount
        let newAvgPrice : ℚ :=
          if 0 < newDistributedItems then
            (auction.avgPrice * (auction.distributedItems : ℚ) + (totalSpent : ℚ))
              / (newDistributedItems : ℚ)
          else 0
        let db2 := { db1 with
          auctions := updAuctions (fun a =>
            { a with distributedItems := newDistributedItems, avgPrice := newAvgPrice })
            auction.auctionId db1.auctions }
        let db3 := setRoundStatus db2 rid RoundStatus.completed
        let remainingItems := auction.totalItems - newDistributedItems
        if remainingItems > 0 ∧ rnd.roundNumber < auction.totalRounds then
          let nextEnd := now + auction.otherRoundDuration
          let newRound : RoundDoc :=
            { roundId := db3.nextId, auctionId := auction.auctionId,
              roundNumber := rnd.roundNumber + 1, startAt := now, endAt := nextEnd,
              originalEndAt := nextEnd, status := RoundStatus.active,
              winnersCount := min auction.itemsPerRound remainingItems }
          let db4 := { db3 with rounds := db3.rounds ++ [newRound], nextId := db3.nextId + 1 }
          let db5 := { db4 with
            auctions := updAuctions (fun a => { a with currentRound := rnd.roundNumber + 1 })
              auction.auctionId db4.auctions }
          { db5 with jobs := scheduleRoundProcessing db5.jobs newRound.roundId nextEnd }
        else
          { db3 with
            auctions := updAuctions (fun a => { a with status := AuctionStatus.completed })
              auction.auctionId db3.auctions }

/-! ### Distributed lock (`src/utils/lock.ts`) over a Redis model -/

/-- A value stored at a Redis key together with its expiry time. -/
structure RedisEntry where
  value : String
  expireAt : Nat
deriving DecidableEq, Repr

/-- A Redis key space: association list from keys to live entries. -/
structure RedisDB where
  entries : List (String × RedisEntry)
deriving DecidableEq, Repr

/-- Association-list lookup. -/
def redisFind : List (String × RedisEntry) → String → Option RedisEntry
  | [], _ => none
  | e :: es, k => if e.1 = k then some e.2 else redisFind es k

/-- Store a value at a key (replace if present, else append). -/
def redisStore : List (String × RedisEntry) → String → RedisEntry → List (String × RedisEntry)
  | [], k, v => [(k, v)]
  | e :: es, k, v => if e.1 = k then (k, v) :: es else e :: redisStore es k v

/-- `redis.set(key, value, 'EX', ttl, 'NX')`: succeed only if the key is
absent or its TTL has expired. -/
def redisSetNX (st : RedisDB) (now : Nat) (key val : String) (ttl : Nat) : RedisDB × Bool :=
  match redisFind st.entries key with
  | some e =>
    if now < e.expireAt then (st, false)
    else ({ entries := redisStore st.entries key { value := val, expireAt := now + ttl } }, true)
  | none => ({ entries := redisStore st.entries key { value := val, expireAt := now + ttl } }, true)

/-- `redis.del(key)`. -/
def redisDel (st : RedisDB) (key : String) : RedisDB :=
  { entries := st.entries.filter (fun e => decide (e.1 ≠ key)) }

/-- The `Lock` class state: its key (prefixed `lock:`), TTL and the
`acquired` flag. -/
structure LockSt where
  key : String
  ttl : Nat
  acquired : Bool
deriving DecidableEq, Repr

/-- `new Lock(key, ttlSeconds)`. -/
def lockNew (key : String) (ttl : Nat) : LockSt :=
  { key := "lock:" ++ key, ttl := ttl, acquired := false }

/-- `Lock.acquire()`: `redis.set(this.key, '1', 'EX', this.ttl, 'NX')`; the
stored value is the constant `'1'` — no per-acquisition owner token. -/
def lockAcquire (l : LockSt) (now : Nat) (st : RedisDB) : LockSt × RedisDB × Bool :=
  let r := redisSetNX st now l.key "1" l.ttl
  ({ l with acquired := r.2 }, r.1, r.2)

/-- `Lock.release()`: if this instance believes it acquired, `redis.del(key)`
— unconditionally, with no owner check. -/
def lockRelease (l : LockSt) (st : RedisDB) : LockSt × RedisDB :=
  if l.acquired then ({ l with acquired := false }, redisDel st l.key) else (l, st)

/-! ### `POST /api/users/login` (`src/routes/api.ts`) -/

/-- The response body data of the login route. -/
structure LoginResp where
  id : Nat
  username : String
  balance : Int
  frozenBalance : Int
deriving DecidableEq, Repr

/-- `User.findOne({username})`. -/
def findUserByName : List UserDoc → String → Option UserDoc
  | [], _ => none
  | u :: us, name => if u.username = name then some u else findUserByName us name

/-- `POST /api/users/login`: find the user by username, else
`User.create({username, balance: 10000, frozenBalance: 0})`; return the
balances.  No `Transaction` document is written on either path. -/
def loginOrRegister (db : DB) (username : String) : DB × LoginResp :=
  match findUserByName db.users username with
  | some u => (db, { id := u.userId, username := u.username,
                     balance := u.balance, frozenBalance := u.frozenBalance })
  | none =>
    let u : UserDoc :=
      { userId := db.nextId, username := username, balance := 10000, frozenBalance := 0 }
    ({ db with users := db.users ++ [u], nextId := db.nextId + 1 },
     { id := u.userId, username := u.username,
       balance := u.balance, frozenBalance := u.frozenBalance })

/-! ### Quiescent-point operations and the money invariant -/

/-- One committed operation of the system, as listed by I-MONEY's quiescent
points. -/
inductive Op
  | deposit (uid : Nat) (amount : Int)
  | freeze (uid : Nat) (amount : Int) (aid bid : Nat)
  | unfreeze (uid : Nat) (amount : Int) (aid bid : Nat)
  | processWin (uid : Nat) (amount : Int) (aid bid : Nat)
  | refund (uid : Nat) (amount : Int) (aid bid : Nat)
  | placeBid (cfg : Config) (now : Nat) (uid aid : Nat) (amount : Int)
  | processRound (now : Nat) (rid : Nat)

/-- The committed state after an operation: a thrown error aborts the
transaction, leaving the state unchanged. -/
def applyOp (db : DB) : Op → DB
  | .deposit uid a => match deposit db uid a with | .ok db1 => db1 | .error _ => db
  | .freeze uid a aid bid => match freeze db uid a aid bid with | .ok db1 => db1 | .error _ => db
  | .unfreeze uid a aid bid =>
    match unfreeze db uid a aid bid with | .ok db1 => db1 | .error _ => db
  | .processWin uid a aid bid =>
    match processWin db uid a aid bid with | .ok db1 => db1 | .error _ => db
  | .refund uid a aid bid => match refund db uid a aid bid with | .ok db1 => db1 | .error _ => db
  | .placeBid cfg now uid aid a =>
    match placeBid cfg now db uid aid a with | .ok r => r.1 | .error _ => db
  | .processRound now rid => processRound now db rid

/-- Sum of the ledger amounts of a given kind for a given user. -/
def sumTx (txs : List Tx) (uid : Nat) (t : TxType) : Int :=
  (txs.map (fun tx => if tx.userId = uid ∧ tx.txType = t then tx.amount else 0)).sum

/-- I-MONEY, per user: `available + frozen` equals total deposits minus total
`win` consumption. -/
def IMoney (db : DB) : Prop :=
  ∀ u ∈ db.users, u.balance + u.frozenBalance =
    sumTx db.txs u.userId .deposit - sumTx db.txs u.userId .win

/-- The amount `totalSpent` accumulated by `settleLoop`: the sum of the
amounts at winning positions (`index < wc`). -/
def winSum (wc : Nat) : List BidDoc → Nat → Int
  | [], _ => 0
  | b :: bs, i => winSum wc bs (i + 1) + (if i < wc then b.amount else 0)

/-- Well-formedness of round ids: pairwise distinct and below the fresh-id
counter (as MongoDB `_id`s are). -/
def RoundIdsOk (db : DB) : Prop :=
  db.rounds.Pairwise (fun a b => a.roundId ≠ b.roundId) ∧
  ∀ r ∈ db.rounds, r.roundId < db.nextId

/-! ### Concrete fixtures used by the verification witnesses -/

/-- C8 counterexample trace: worker A acquires `round:1` at t=0 with TTL 30;
at t=31 the TTL has expired and worker B acquires the same key; A then
releases. -/
def lockTraceA0 : LockSt := lockNew "round:1" 30

/-- Step 1 of the C8 counterexample trace: A acquires on an empty store. -/
def lockTrace1 : LockSt × RedisDB × Bool := lockAcquire lockTraceA0 0 { entries := [] }

/-- Step 2: B acquires the same key at t=31, after A's TTL expired. -/
def lockTrace2 : LockSt × RedisDB × Bool := lockAcquire (lockNew "round:1" 30) 31 lockTrace1.2.1

/-- Step 3: A's stale release. -/
def lockTrace3 : LockSt × RedisDB := lockRelease lockTrace1.1 lockTrace2.2.1

/-- Concrete anti-snipe fixture: config with window 5000ms, extension
30000ms, threshold 3. -/
def wCfg : Config := ⟨5000, 30000, 3⟩

/-- Concrete fixture bid: id 20, auction 1, round 2, user 10, amount 100,
active, placed at t=9600. -/
def wSnipeBid : BidDoc := ⟨20, 1, 2, 10, 100, .active, none, none, 9600⟩

/-- Concrete fixture round: id 2, auction 1, round 1, ends at t=10000,
active, one winner. -/
def wSnipeRound : RoundDoc := ⟨2, 1, 1, 0, 10000, 10000, .active, 1⟩

/-- Concrete fixture state for the anti-snipe witness. -/
def wSnipeDB : DB := ⟨[], [wSnipeBid], [wSnipeRound], [], [], [], 21⟩

/-- Concrete fixture user for the I-MONEY witness. -/
def wMoneyUser : UserDoc := ⟨1, "m", 0, 0⟩

/-- Concrete fixture state for the I-MONEY witness. -/
def wMoneyDB : DB := ⟨[wMoneyUser], [], [], [], [], [], 2⟩

/-- Concrete fixture user with `available = 50`. -/
def wInsUser : UserDoc := ⟨3, "c", 50, 0⟩

/-- Concrete fixture auction (active, `minBid = 1`). -/
def wInsAuction : AuctionDoc := ⟨1, .active, 1, 1, 1, 1, 1, 0, 0, 1000⟩

/-- Concrete fixture round (active, ends at t=1000). -/
def wInsRound : RoundDoc := ⟨2, 1, 1, 0, 1000, 1000, .active, 1⟩

/-- Concrete fixture state for the insufficient-funds witness. -/
def wInsDB : DB := ⟨[wInsUser], [], [wInsRound], [wInsAuction], [], [], 10⟩

/-- Concrete fixture: two frozen-funded users for the settlement witnesses. -/
def wSetUserA : UserDoc := ⟨10, "a", 400, 100⟩

/-- Second fixture user. -/
def wSetUserB : UserDoc := ⟨11, "b", 350, 150⟩

/-- Fixture auction for the settlement witnesses. -/
def wSetAuction : AuctionDoc := ⟨1, .active, 1, 1, 1, 1, 1, 0, 0, 1000⟩

/-- Fixture round for the settlement witnesses. -/
def wSetRound : RoundDoc := ⟨2, 1, 1, 0, 10000, 10000, .active, 1⟩

/-- Fixture bid of user 10 (amount 100, placed at t=1000). -/
def wSetBidA : BidDoc := ⟨20, 1, 2, 10, 100, .active, none, none, 1000⟩

/-- Fixture bid of user 11 (amount 150, placed at t=2000). -/
def wSetBidB : BidDoc := ⟨21, 1, 2, 11, 150, .active, none, none, 2000⟩

/-- Fixture state for the settlement witnesses. -/
def wSetDB : DB :=
  ⟨[wSetUserA, wSetUserB], [wSetBidA, wSetBidB], [wSetRound], [wSetAuction], [], [], 30⟩

/-- The state after `settleLoop` on `wSetDB`: bid 21 won (item 1), bid 20
refunded, the win consumed and the refund returned, two ledger entries. -/
def wSetDB1 : DB :=
  ⟨[⟨10, "a", 500, 0⟩, ⟨11, "b", 350, 0⟩],
   [⟨20, 1, 2, 10, 100, .refunded, none, none, 1000⟩,
    ⟨21, 1, 2, 11, 150, .won, some 1, some 1, 2000⟩],
   [⟨2, 1, 1, 0, 10000, 10000, .processing, 1⟩],
   [wSetAuction],
   [⟨11, .win, 150, some 1, some 21, 350, 350⟩,
    ⟨10, .refund, 100, some 1, some 20, 400, 500⟩],
   [], 30⟩

/-- Concrete fixture round for the C9 counterexample (active, one winner). -/
def wErrRound : RoundDoc := ⟨1, 5, 1, 0, 100, 100, .active, 1⟩

/-- Concrete fixture auction for the C9 counterexample. -/
def wErrAuction : AuctionDoc := ⟨5, .active, 1, 1, 1, 1, 1, 0, 0, 1000⟩

/-- Concrete fixture bid whose user (id 99) does not exist, so settlement
throws `User not found` inside the transaction. -/
def wErrBid : BidDoc := ⟨7, 5, 1, 99, 50, .active, none, none, 10⟩

/-- Concrete fixture state for the C9 counterexample. -/
def wErrDB : DB := ⟨[], [wErrBid], [wErrRound], [wErrAuction], [], [], 8⟩

/-- Fixture round for the idempotence witness. -/
def wIdemRound : RoundDoc := ⟨1, 5, 1, 0, 100, 100, .active, 1⟩

/-- Fixture auction for the idempotence witness. -/
def wIdemAuction : AuctionDoc := ⟨5, .active, 1, 1, 1, 1, 1, 0, 0, 1000⟩

/-- Fixture state for the idempotence witness: an active round with no bids. -/
def wIdemDB : DB := ⟨[], [], [wIdemRound], [wIdemAuction], [], [], 9⟩

/-- The committed result of the raise `placeBid(10, 1, 50)` at `t = 3000` on
the settlement fixture. -/
def wRaiseRes : DB × BidDoc × Bool :=
  (⟨[⟨10, "a", 350, 150⟩, ⟨11, "b", 350, 150⟩],
    [⟨20, 1, 2, 10, 150, .active, none, none, 1000⟩,
     ⟨21, 1, 2, 11, 150, .active, none, none, 2000⟩],
    [⟨2, 1, 1, 0, 10000, 10000, .active, 1⟩],
    [⟨1, .active, 1, 1, 1, 1, 1, 0, 0, 1000⟩],
    [⟨10, .freeze, 50, some 1, some 20, 400, 350⟩],
    [], 30⟩,
   ⟨20, 1, 2, 10, 150, .active, none, none, 1000⟩,
   false)

/-! ## Lookup / update lemmas -/

lemma findUser_map (g : UserDoc → UserDoc) (h : ∀ u, (g u).userId = u.userId)
    (us : List UserDoc) (k : Nat) :
    findUser (us.map g) k = (findUser us k).map g := by
  induction us with
  | nil => rfl
  | cons u us ih =>
    simp only [List.map_cons, findUser, h u]
    split <;> simp [ih]

lemma findBid_map (g : BidDoc → BidDoc) (h : ∀ b, (g b).bidId = b.bidId)
    (bs : List BidDoc) (k : Nat) :
    findBid (bs.map g) k = (findBid bs k).map g := by
  induction bs with
  | nil => rfl
  | cons b bs ih =>
    simp only [List.map_cons, findBid, h b]
    split <;> simp [ih]

lemma findAuction_map (g : AuctionDoc → AuctionDoc) (h : ∀ a, (g a).auctionId = a.auctionId)
    (as_ : List AuctionDoc) (k : Nat) :
    findAuction (as_.map g) k = (findAuction as_ k).map g := by
  induction as_ with
  | nil => rfl
  | cons a as_ ih =>
    simp only [List.map_cons, findAuction, h a]
    split <;> simp [ih]

lemma findRound_map (g : RoundDoc → RoundDoc) (h : ∀ r, (g r).roundId = r.roundId)
    (rs : List RoundDoc) (k : Nat) :
    findRound (rs.map g) k = (findRound rs k).map g := by
  induction rs with
  | nil => rfl
  | cons r rs ih =>
    simp only [List.map_cons, findRound, h r]
    split <;> simp [ih]

lemma findRound_append_left {rs : List RoundDoc} {k : Nat} {r : RoundDoc}
    (h : findRound rs k = some r) (ts : List RoundDoc) :
    findRound (rs ++ ts) k = some r := by
  induction rs with
  | nil => exact absurd h (by simp [findRound])
  | cons x rs ih =>
    simp only [findRound, List.cons_append] at h ⊢
    split at h
    · next hc => rw [if_pos hc]; exact h
    · next hc => rw [if_neg hc]; exact ih h

lemma findUserByName_append_none {us : List UserDoc} {name : String}
    (h : findUserByName us name = none) (vs : List UserDoc) :
    findUserByName (us ++ vs) name = findUserByName vs name := by
  induction us with
  | nil => rfl
  | cons u us ih =>
    simp only [findUserByName, List.cons_append] at h ⊢
    split at h <;> simp_all [findUserByName]

/-! ## C10 — login route creates 10000 without a ledger entry -/

/-- C10: `POST /api/users/login` with an unknown username creates the user
with `balance = 10000`, `frozenBalance = 0`, returns it, and writes no
`Transaction` (ledger) document of any kind — the created funds are not
recorded as a deposit. -/
theorem login_initial_balance (db : DB) (username : String)
    (h : findUserByName db.users username = none) :
    (loginOrRegister db username).2 =
      { id := db.nextId, username := username, balance := 10000, frozenBalance := 0 } ∧
    findUserByName (loginOrRegister db username).1.users username =
      some { userId := db.nextId, username := username, balance := 10000, frozenBalance := 0 } ∧
    (loginOrRegister db username).1.txs = db.txs := by
  unfold loginOrRegister
  rw [h]
  refine ⟨rfl, ?_, rfl⟩
  rw [findUserByName_append_none h]
  simp [findUserByName]

/-- Witness for C10 at a concrete state. -/
theorem login_initial_balance_witness :
    (loginOrRegister { users := [], bids := [], rounds := [], auctions := [],
                       txs := [], jobs := [], nextId := 7 } "alice").2 =
      { id := 7, username := "alice", balance := 10000, frozenBalance := 0 } ∧
    findUserByName (loginOrRegister { users := [], bids := [], rounds := [], auctions := [],
                                      txs := [], jobs := [], nextId := 7 } "alice").1.users "alice" =
      some { userId := 7, username := "alice", balance := 10000, frozenBalance := 0 } ∧
    (loginOrRegister { users := [], bids := [], rounds := [], auctions := [],
                       txs := [], jobs := [], nextId := 7 } "alice").1.txs = [] :=
  login_initial_balance
    { users := [], bids := [], rounds := [], auctions := [], txs := [], jobs := [], nextId := 7 }
    "alice" (by rfl)

/-! ## C8 — lock release is not owner-safe -/

lemma redisFind_store_self (es : List (String × RedisEntry)) (k : String) (v : RedisEntry) :
    redisFind (redisStore es k v) k = some v := by
  induction es with
  | nil => simp [redisStore, redisFind]
  | cons e es ih =>
    simp only [redisStore]
    split
    · simp [redisFind]
    · simp only [redisFind]
      split
      · simp_all
      · exact ih

lemma redisFind_del (st : RedisDB) (k : String) :
    redisFind (redisDel st k).entries k = none := by
  show redisFind (st.entries.filter _) k = none
  induction st.entries with
  | nil => rfl
  | cons e es ih =>
    simp only [List.filter]
    split
    · next hcond =>
      simp only [decide_eq_true_eq] at hcond
      simp only [redisFind, if_neg hcond]
      exact ih
    · exact ih





/-- C8 counterexample: both acquisitions succeed, B's lock entry is live
(expiry 61) before A's release, and A's stale release deletes B's lock —
the release is not owner-guarded, contradicting the claim that a release
after TTL expiry never deletes the other worker's lock. -/
theorem lock_release_cex :
    lockTrace1.2.2 = true ∧ lockTrace2.2.2 = true ∧
    redisFind lockTrace2.2.1.entries lockTraceA0.key =
      some { value := "1", expireAt := 61 } ∧
    redisFind lockTrace3.2.entries lockTraceA0.key = none := by
  decide

/-- C8 amended: each acquisition stores the constant value `'1'` — there is
no per-acquisition owner token — and `release` deletes the key
unconditionally whenever this instance's `acquired` flag is set, so a
release performed after the TTL expired deletes whatever lock currently
occupies the key, including another worker's. -/
theorem lock_release_unconditional (l : LockSt) (st : RedisDB) (h : l.acquired = true) :
    redisFind (lockRelease l st).2.entries l.key = none ∧
    (∀ now st2, (lockAcquire l now st2).2.2 = true →
      redisFind ((lockAcquire l now st2).2.1).entries l.key =
        some { value := "1", expireAt := now + l.ttl }) := by
  constructor
  · unfold lockRelease
    rw [if_pos h]
    exact redisFind_del st l.key
  · intro now st2 hacq
    unfold lockAcquire redisSetNX at hacq ⊢
    cases hfind : redisFind st2.entries l.key with
    | none => simp only [hfind]; exact redisFind_store_self _ _ _
    | some e =>
      simp only [hfind] at hacq ⊢
      split at hacq
      · exact absurd hacq (by simp)
      · next hexp => rw [if_neg hexp]; exact redisFind_store_self _ _ _

/-- Witness for the amended C8 at a concrete lock state. -/
theorem lock_release_unconditional_witness :
    redisFind (lockRelease { key := "lock:round:9", ttl := 30, acquired := true }
      { entries := [("lock:round:9", { value := "1", expireAt := 99 })] }).2.entries
      "lock:round:9" = none ∧
    (∀ now st2,
      (lockAcquire { key := "lock:round:9", ttl := 30, acquired := true } now st2).2.2 = true →
      redisFind ((lockAcquire { key := "lock:round:9", ttl := 30, acquired := true }
          now st2).2.1).entries "lock:round:9" =
        some { value := "1", expireAt := now + 30 }) :=
  lock_release_unconditional
    { key := "lock:round:9", ttl := 30, acquired := true }
    { entries := [("lock:round:9", { value := "1", expireAt := 99 })] } rfl

/-! ## C6 — anti-snipe trigger condition, extension, reschedule -/

/-- C6: for an accepted bid, anti-snipe triggers iff `endAt − now` is at most
the window and the bid is within the top `threshold` active bids ordered by
`(amount DESC, createdAt ASC)`; on trigger `endAt` is increased by exactly
the extension (so it is non-decreasing) and the `close-round` job is
rescheduled to the new `endAt`; without a trigger the state is unchanged; a
bid earlier than `endAt − window` never triggers. -/
theorem antiSnipe_trigger_spec (cfg : Config) (now : Nat) (db : DB) (rnd : RoundDoc)
    (bid : BidDoc) :
    ((checkAntiSniping cfg now db rnd bid).2 = true ↔
      ((rnd.endAt : Int) - (now : Int) ≤ cfg.antiSnipingWindow ∧
       ∃ b ∈ (sortBids (activeBidsOfRound db.bids rnd.roundId)).take cfg.antiSnipingThreshold,
         b.bidId = bid.bidId)) ∧
    ((checkAntiSniping cfg now db rnd bid).2 = true →
      (checkAntiSniping cfg now db rnd bid).1.rounds =
        updRounds (fun r => { r with endAt := rnd.endAt + cfg.antiSnipingExtension })
          rnd.roundId db.rounds ∧
      (checkAntiSniping cfg now db rnd bid).1.jobs =
        rescheduleRoundProcessing db.jobs rnd.roundId (rnd.endAt + cfg.antiSnipingExtension) ∧
      rnd.endAt ≤ rnd.endAt + cfg.antiSnipingExtension) ∧
    ((checkAntiSniping cfg now db rnd bid).2 = false →
      (checkAntiSniping cfg now db rnd bid).1 = db) ∧
    ((now : Int) < (rnd.endAt : Int) - cfg.antiSnipingWindow →
      (checkAntiSniping cfg now db rnd bid).2 = false) := by
  by_cases hw : cfg.antiSnipingWindow < (rnd.endAt : Int) - (now : Int)
  · have hc : checkAntiSniping cfg now db rnd bid = (db, false) := by
      unfold checkAntiSniping
      rw [if_pos hw]
    rw [hc]
    refine ⟨?_, ?_, ?_, ?_⟩
    · constructor
      · intro hcontra
        exact absurd hcontra (by simp)
      · intro hcontra
        exact absurd hcontra.1 (by omega)
    · intro hcontra
      exact absurd hcontra (by simp)
    · intro _
      rfl
    · intro _
      rfl
  · by_cases htop : ((sortBids (activeBidsOfRound db.bids rnd.roundId)).take
        cfg.antiSnipingThreshold).any (fun b => decide (b.bidId = bid.bidId)) = true
    · have hc : checkAntiSniping cfg now db rnd bid =
          ({ db with
             rounds := updRounds (fun r => { r with endAt := rnd.endAt + cfg.antiSnipingExtension })
               rnd.roundId db.rounds,
             jobs := rescheduleRoundProcessing db.jobs rnd.roundId
               (rnd.endAt + cfg.antiSnipingExtension) }, true) := by
        unfold checkAntiSniping
        rw [if_neg hw, if_pos htop]
      rw [hc]
      refine ⟨?_, ?_, ?_, ?_⟩
      · simp only [true_iff]
        refine ⟨by omega, ?_⟩
        simpa [List.any_eq_true, decide_eq_true_eq] using htop
      · intro _
        exact ⟨rfl, rfl, Nat.le_add_right _ _⟩
      · intro hcontra
        exact absurd hcontra (by simp)
      · intro hcontra
        omega
    · have hc : checkAntiSniping cfg now db rnd bid = (db, false) := by
        unfold checkAntiSniping
        rw [if_neg hw, if_neg (by simpa using htop)]
      rw [hc]
      refine ⟨?_, ?_, ?_, ?_⟩
      · constructor
        · intro hcontra
          exact absurd hcontra (by simp)
        · intro hcontra
          refine absurd ?_ htop
          simpa [List.any_eq_true, decide_eq_true_eq] using hcontra.2
      · intro hcontra
        exact absurd hcontra (by simp)
      · intro _
        rfl
      · intro _
        rfl





/-- Witness for C6 at a concrete state with a triggering bid at t=9600,
inside the 5000ms window of a round ending at t=10000. -/
theorem antiSnipe_trigger_spec_witness :
    (checkAntiSniping wCfg 9600 wSnipeDB wSnipeRound wSnipeBid).2 = true ∧
    ((10000 : Int) - (9600 : Int) ≤ 5000) :=
  have h := antiSnipe_trigger_spec wCfg 9600 wSnipeDB wSnipeRound wSnipeBid
  ⟨h.1.mpr ⟨by decide, by decide⟩, by decide⟩

/-! ## C1 — the money invariant I-MONEY -/

lemma sumTx_append (txs : List Tx) (tx : Tx) (uid : Nat) (t : TxType) :
    sumTx (txs ++ [tx]) uid t =
      sumTx txs uid t + (if tx.userId = uid ∧ tx.txType = t then tx.amount else 0) := by
  unfold sumTx
  simp

lemma IMoney_congr {db db1 : DB} (hu : db1.users = db.users) (ht : db1.txs = db.txs)
    (h : IMoney db) : IMoney db1 := by
  unfold IMoney at h ⊢
  rw [hu, ht]
  exact h

/-- Preservation through one balance mutation plus its ledger append: the
update `f` hits exactly the users with id `uid`, the appended entry belongs
to `uid`, and `f` changes `balance + frozenBalance` by exactly the entry's
deposit-minus-win contribution. -/
lemma IMoney_update (db : DB) (uid : Nat) (f : UserDoc → UserDoc) (tx : Tx)
    (hid : ∀ v, (f v).userId = v.userId)
    (htx : tx.userId = uid)
    (hsum : ∀ v, v.userId = uid → (f v).balance + (f v).frozenBalance
        = v.balance + v.frozenBalance
          + ((if tx.txType = TxType.deposit then tx.amount else 0)
             - (if tx.txType = TxType.win then tx.amount else 0)))
    (h : IMoney db) :
    IMoney { db with users := updUsers f uid db.users, txs := db.txs ++ [tx] } := by
  unfold IMoney at h ⊢
  intro u hu
  simp only [updUsers] at hu
  obtain ⟨v, hv, rfl⟩ := List.mem_map.mp hu
  have hbase := h v hv
  by_cases hvu : v.userId = uid
  · rw [if_pos hvu]
    rw [sumTx_append, sumTx_append, hid v, hvu]
    have hs := hsum v hvu
    rw [htx]
    simp only [true_and]
    split_ifs at hs ⊢ <;> simp_all <;> omega
  · rw [if_neg hvu]
    rw [sumTx_append, sumTx_append]
    have hne : ¬ tx.userId = v.userId := by
      rw [htx]
      exact fun hh => hvu hh.symm
    rw [if_neg (fun hc => hne hc.1), if_neg (fun hc => hne hc.1)]
    omega

/-- Inversion of a successful `deposit`. -/
lemma deposit_ok_shape {db : DB} {uid : Nat} {a : Int} {db1 : DB}
    (hok : deposit db uid a = .ok db1) :
    ∃ u, findUser db.users uid = some u ∧
      db1 = { db with
        users := updUsers (fun v => { v with balance := v.balance + a }) uid db.users,
        txs := db.txs ++ [⟨uid, TxType.deposit, a, none, none, u.balance, u.balance + a⟩] } := by
  unfold deposit at hok
  split at hok
  · exact absurd hok (by simp)
  · next u hfind =>
    exact ⟨u, hfind, by injection hok with h; rw [← h]⟩

/-- Inversion of a successful `freeze`. -/
lemma freeze_ok_shape {db : DB} {uid : Nat} {a : Int} {aid bid : Nat} {db1 : DB}
    (hok : freeze db uid a aid bid = .ok db1) :
    ∃ u, findUser db.users uid = some u ∧ ¬ u.balance < a ∧
      db1 = { db with
        users := updUsers (fun v => { v with
          balance := v.balance - a,
          frozenBalance := v.frozenBalance + a }) uid db.users,
        txs := db.txs ++
          [⟨uid, TxType.freeze, a, some aid, some bid, u.balance, u.balance - a⟩] } := by
  unfold freeze at hok
  split at hok
  · exact absurd hok (by simp)
  · next u hfind =>
    split at hok
    · exact absurd hok (by simp)
    · next hbal => exact ⟨u, hfind, hbal, by injection hok with h; rw [← h]⟩

/-- Inversion of a successful `unfreeze`. -/
lemma unfreeze_ok_shape {db : DB} {uid : Nat} {a : Int} {aid bid : Nat} {db1 : DB}
    (hok : unfreeze db uid a aid bid = .ok db1) :
    ∃ u, findUser db.users uid = some u ∧ ¬ u.frozenBalance < a ∧
      db1 = { db with
        users := updUsers (fun v => { v with
          frozenBalance := v.frozenBalance - a,
          balance := v.balance + a }) uid db.users,
        txs := db.txs ++
          [⟨uid, TxType.unfreeze, a, some aid, some bid, u.balance, u.balance + a⟩] } := by
  unfold unfreeze at hok
  split at hok
  · exact absurd hok (by simp)
  · next u hfind =>
    split at hok
    · exact absurd hok (by simp)
    · next hfro => exact ⟨u, hfind, hfro, by injection hok with h; rw [← h]⟩

/-- Inversion of a successful `processWin`. -/
lemma processWin_ok_shape {db : DB} {uid : Nat} {a : Int} {aid bid : Nat} {db1 : DB}
    (hok : processWin db uid a aid bid = .ok db1) :
    ∃ u, findUser db.users uid = some u ∧ ¬ u.frozenBalance < a ∧
      db1 = { db with
        users := updUsers (fun v =>
          { v with frozenBalance := v.frozenBalance - a }) uid db.users,
        txs := db.txs ++
          [⟨uid, TxType.win, a, some aid, some bid, u.balance, u.balance⟩] } := by
  unfold processWin at hok
  split at hok
  · exact absurd hok (by simp)
  · next u hfind =>
    split at hok
    · exact absurd hok (by simp)
    · next hfro => exact ⟨u, hfind, hfro, by injection hok with h; rw [← h]⟩

/-- Inversion of a successful `refund`. -/
lemma refund_ok_shape {db : DB} {uid : Nat} {a : Int} {aid bid : Nat} {db1 : DB}
    (hok : refund db uid a aid bid = .ok db1) :
    ∃ u, findUser db.users uid = some u ∧ ¬ u.frozenBalance < a ∧
      db1 = { db with
        users := updUsers (fun v => { v with
          frozenBalance := v.frozenBalance - a,
          balance := v.balance + a }) uid db.users,
        txs := db.txs ++
          [⟨uid, TxType.refund, a, some aid, some bid, u.balance, u.balance + a⟩] } := by
  unfold refund at hok
  split at hok
  · exact absurd hok (by simp)
  · next u hfind =>
    split at hok
    · exact absurd hok (by simp)
    · next hfro => exact ⟨u, hfind, hfro, by injection hok with h; rw [← h]⟩

lemma IMoney_deposit {db db1 : DB} {uid : Nat} {a : Int}
    (hok : deposit db uid a = .ok db1) (h : IMoney db) : IMoney db1 := by
  obtain ⟨u, hfind, rfl⟩ := deposit_ok_shape hok
  exact IMoney_update db uid _ _ (fun v => rfl) rfl (fun v _ => by simp <;> ring) h

lemma IMoney_freeze {db db1 : DB} {uid : Nat} {a : Int} {aid bid : Nat}
    (hok : freeze db uid a aid bid = .ok db1) (h : IMoney db) : IMoney db1 := by
  obtain ⟨u, hfind, hbal, rfl⟩ := freeze_ok_shape hok
  exact IMoney_update db uid _ _ (fun v => rfl) rfl (fun v _ => by simp <;> ring) h

lemma IMoney_unfreeze {db db1 : DB} {uid : Nat} {a : Int} {aid bid : Nat}
    (hok : unfreeze db uid a aid bid = .ok db1) (h : IMoney db) : IMoney db1 := by
  obtain ⟨u, hfind, hfro, rfl⟩ := unfreeze_ok_shape hok
  exact IMoney_update db uid _ _ (fun v => rfl) rfl (fun v _ => by simp <;> ring) h

lemma IMoney_processWin {db db1 : DB} {uid : Nat} {a : Int} {aid bid : Nat}
    (hok : processWin db uid a aid bid = .ok db1) (h : IMoney db) : IMoney db1 := by
  obtain ⟨u, hfind, hfro, rfl⟩ := processWin_ok_shape hok
  exact IMoney_update db uid _ _ (fun v => rfl) rfl (fun v _ => by simp <;> ring) h

lemma IMoney_refund {db db1 : DB} {uid : Nat} {a : Int} {aid bid : Nat}
    (hok : refund db uid a aid bid = .ok db1) (h : IMoney db) : IMoney db1 := by
  obtain ⟨u, hfind, hfro, rfl⟩ := refund_ok_shape hok
  exact IMoney_update db uid _ _ (fun v => rfl) rfl (fun v _ => by simp <;> ring) h

/-- `checkAntiSniping` only touches `rounds` and `jobs`. -/
lemma checkAntiSniping_fields (cfg : Config) (now : Nat) (db : DB) (rnd : RoundDoc)
    (bid : BidDoc) :
    (checkAntiSniping cfg now db rnd bid).1.users = db.users ∧
    (checkAntiSniping cfg now db rnd bid).1.txs = db.txs ∧
    (checkAntiSniping cfg now db rnd bid).1.bids = db.bids ∧
    (checkAntiSniping cfg now db rnd bid).1.auctions = db.auctions ∧
    (checkAntiSniping cfg now db rnd bid).1.nextId = db.nextId := by
  by_cases hw : cfg.antiSnipingWindow < (rnd.endAt : Int) - (now : Int)
  · have hc : checkAntiSniping cfg now db rnd bid = (db, false) := by
      unfold checkAntiSniping
      rw [if_pos hw]
    rw [hc]
    exact ⟨rfl, rfl, rfl, rfl, rfl⟩
  · by_cases htop : ((sortBids (activeBidsOfRound db.bids rnd.roundId)).take
        cfg.antiSnipingThreshold).any (fun b => decide (b.bidId = bid.bidId)) = true
    · have hc : checkAntiSniping cfg now db rnd bid =
          ({ db with
             rounds := updRounds
               (fun r => { r with endAt := rnd.endAt + cfg.antiSnipingExtension })
               rnd.roundId db.rounds,
             jobs := rescheduleRoundProcessing db.jobs rnd.roundId
               (rnd.endAt + cfg.antiSnipingExtension) }, true) := by
        unfold checkAntiSniping
        rw [if_neg hw, if_pos htop]
      rw [hc]
      exact ⟨rfl, rfl, rfl, rfl, rfl⟩
    · have hc : checkAntiSniping cfg now db rnd bid = (db, false) := by
        unfold checkAntiSniping
        rw [if_neg hw, if_neg (by simpa using htop)]
      rw [hc]
      exact ⟨rfl, rfl, rfl, rfl, rfl⟩

lemma findAuction_eq_id {as_ : List AuctionDoc} {k : Nat} {a : AuctionDoc}
    (h : findAuction as_ k = some a) : a.auctionId = k := by
  induction as_ with
  | nil => exact absurd h (by simp [findAuction])
  | cons x as_ ih =>
    unfold findAuction at h
    split at h
    · next hc => injection h with h; rw [← h]; exact hc
    · exact ih h

lemma findUser_eq_id {us : List UserDoc} {k : Nat} {u : UserDoc}
    (h : findUser us k = some u) : u.userId = k := by
  induction us with
  | nil => exact absurd h (by simp [findUser])
  | cons x us ih =>
    unfold findUser at h
    split at h
    · next hc => injection h with h; rw [← h]; exact hc
    · exact ih h

lemma findActiveRoundById_found {rs : List RoundDoc} {rid : Nat} {r : RoundDoc}
    (h : findActiveRoundById rs rid = some r) :
    r.roundId = rid ∧ r.status = RoundStatus.active ∧ r ∈ rs := by
  induction rs with
  | nil => exact absurd h (by simp [findActiveRoundById])
  | cons x rs ih =>
    unfold findActiveRoundById at h
    split at h
    · next hc =>
      injection h with h
      rw [← h]
      exact ⟨hc.1, hc.2, by simp⟩
    · have := ih h
      exact ⟨this.1, this.2.1, List.mem_cons_of_mem _ this.2.2⟩

lemma findActiveRoundOfAuction_found {rs : List RoundDoc} {aid : Nat} {r : RoundDoc}
    (h : findActiveRoundOfAuction rs aid = some r) :
    r.auctionId = aid ∧ r.status = RoundStatus.active := by
  induction rs with
  | nil => exact absurd h (by simp [findActiveRoundOfAuction])
  | cons x rs ih =>
    unfold findActiveRoundOfAuction at h
    split at h
    · next hc => injection h with h; rw [← h]; exact hc
    · exact ih h

lemma findActiveBid_found {bs : List BidDoc} {aid rid uid : Nat} {b : BidDoc}
    (h : findActiveBid bs aid rid uid = some b) :
    b.auctionId = aid ∧ b.roundId = rid ∧ b.userId = uid ∧ b.status = BidStatus.active := by
  induction bs with
  | nil => exact absurd h (by simp [findActiveBid])
  | cons x bs ih =>
    unfold findActiveBid at h
    split at h
    · next hc => injection h with h; rw [← h]; exact hc
    · exact ih h

lemma findAuction_updAuctions (f : AuctionDoc → AuctionDoc)
    (hf : ∀ a, (f a).auctionId = a.auctionId) (aid : Nat) (as_ : List AuctionDoc) (k : Nat) :
    findAuction (updAuctions f aid as_) k =
      (findAuction as_ k).map (fun a => if a.auctionId = aid then f a else a) := by
  unfold updAuctions
  refine findAuction_map _ (fun a => ?_) as_ k
  dsimp only
  split
  · exact hf a
  · rfl

lemma findAuction_double_upd (g1 g2 : AuctionDoc → AuctionDoc)
    (h1 : ∀ a, (g1 a).auctionId = a.auctionId) (h2 : ∀ a, (g2 a).auctionId = a.auctionId)
    {as_ : List AuctionDoc} {k : Nat} {a : AuctionDoc} (ha : findAuction as_ k = some a) :
    findAuction (updAuctions g2 k (updAuctions g1 k as_)) k = some (g2 (g1 a)) := by
  have hak := findAuction_eq_id ha
  rw [findAuction_updAuctions g2 h2, findAuction_updAuctions g1 h1, ha]
  simp only [Option.map_some']
  rw [if_pos hak]
  rw [if_pos (show (g1 a).auctionId = k by rw [h1 a]; exact hak)]

lemma findUser_updUsers (f : UserDoc → UserDoc) (hf : ∀ u, (f u).userId = u.userId)
    (uid : Nat) (us : List UserDoc) (k : Nat) :
    findUser (updUsers f uid us) k =
      (findUser us k).map (fun u => if u.userId = uid then f u else u) := by
  unfold updUsers
  refine findUser_map _ (fun u => ?_) us k
  dsimp only
  split
  · exact hf u
  · rfl

lemma findBid_updBids (f : BidDoc → BidDoc) (hf : ∀ b, (f b).bidId = b.bidId)
    (bid : Nat) (bs : List BidDoc) (k : Nat) :
    findBid (updBids f bid bs) k =
      (findBid bs k).map (fun b => if b.bidId = bid then f b else b) := by
  unfold updBids
  refine findBid_map _ (fun b => ?_) bs k
  dsimp only
  split
  · exact hf b
  · rfl

lemma findRound_updRounds (f : RoundDoc → RoundDoc) (hf : ∀ r, (f r).roundId = r.roundId)
    (rid : Nat) (rs : List RoundDoc) (k : Nat) :
    findRound (updRounds f rid rs) k =
      (findRound rs k).map (fun r => if r.roundId = rid then f r else r) := by
  unfold updRounds
  refine findRound_map _ (fun r => ?_) rs k
  dsimp only
  split
  · exact hf r
  · rfl

/-- Inversion of a successful `placeBid`: all admission guards held, and the
result is the raise path or the new-bid path. -/
lemma placeBid_ok_inv {cfg : Config} {now : Nat} {db : DB} {uid aid : Nat} {a : Int}
    {r : DB × BidDoc × Bool} (hok : placeBid cfg now db uid aid a = .ok r) :
    ∃ auction rnd user, findAuction db.auctions aid = some auction ∧
      auction.status = AuctionStatus.active ∧ ¬ a < auction.minBid ∧
      findActiveRoundOfAuction db.rounds aid = some rnd ∧ ¬ rnd.endAt < now ∧
      findUser db.users uid = some user ∧ ¬ user.balance < a ∧
      ((∃ eb, findActiveBid db.bids aid rnd.roundId uid = some eb ∧
        ∃ dbF, freeze db uid a aid eb.bidId = .ok dbF ∧
          r = raiseResult cfg now dbF rnd eb a) ∨
       (findActiveBid db.bids aid rnd.roundId uid = none ∧
        ∃ dbF, freeze { db with
            bids := db.bids ++ [newBidDoc db uid aid rnd a now],
            nextId := db.nextId + 1 }
          uid a aid (newBidDoc db uid aid rnd a now).bidId = .ok dbF ∧
          r = newBidResult cfg now dbF rnd (newBidDoc db uid aid rnd a now))) := by
  unfold placeBid at hok
  cases hA : findAuction db.auctions aid with
  | none => rw [hA] at hok; exact absurd hok (by simp)
  | some auction =>
    simp only [hA] at hok
    by_cases hst : auction.status ≠ AuctionStatus.active
    · rw [if_pos hst] at hok; exact absurd hok (by simp)
    · rw [if_neg hst] at hok
      by_cases hmin : a < auction.minBid
      · rw [if_pos hmin] at hok; exact absurd hok (by simp)
      · rw [if_neg hmin] at hok
        cases hRd : findActiveRoundOfAuction db.rounds aid with
        | none => rw [hRd] at hok; exact absurd hok (by simp)
        | some rnd =>
          simp only [hRd] at hok
          by_cases hend : rnd.endAt < now
          · rw [if_pos hend] at hok; exact absurd hok (by simp)
          · rw [if_neg hend] at hok
            cases hU : findUser db.users uid with
            | none => rw [hU] at hok; exact absurd hok (by simp)
            | some user =>
              simp only [hU] at hok
              cases hB : findActiveBid db.bids aid rnd.roundId uid with
              | some eb =>
                simp only [hB] at hok
                by_cases hbal : user.balance < a
                · rw [if_pos hbal] at hok; exact absurd hok (by simp)
                · rw [if_neg hbal] at hok
                  cases hfz : freeze db uid a aid eb.bidId with
                  | error e => rw [hfz] at hok; exact absurd hok (by simp)
                  | ok dbF =>
                    simp only [hfz] at hok
                    refine ⟨auction, rnd, user, rfl, not_not.mp hst, hmin, rfl, hend, rfl, hbal,
                      Or.inl ⟨eb, hB, dbF, hfz, ?_⟩⟩
                    injection hok with h
                    exact h.symm
              | none =>
                simp only [hB] at hok
                by_cases hbal : user.balance < a
                · rw [if_pos hbal] at hok; exact absurd hok (by simp)
                · rw [if_neg hbal] at hok
                  cases hfz : freeze { db with
                      bids := db.bids ++ [newBidDoc db uid aid rnd a now],
                      nextId := db.nextId + 1 }
                      uid a aid (newBidDoc db uid aid rnd a now).bidId with
                  | error e => rw [hfz] at hok; exact absurd hok (by simp)
                  | ok dbF =>
                    simp only [hfz] at hok
                    refine ⟨auction, rnd, user, rfl, not_not.mp hst, hmin, rfl, hend, rfl, hbal,
                      Or.inr ⟨hB, dbF, hfz, ?_⟩⟩
                    injection hok with h
                    exact h.symm

lemma IMoney_placeBid {cfg : Config} {now : Nat} {db : DB} {uid aid : Nat} {a : Int}
    {r : DB × BidDoc × Bool}
    (hok : placeBid cfg now db uid aid a = .ok r) (h : IMoney db) : IMoney r.1 := by
  obtain ⟨auction, rnd, user, hA, hst, hmin, hRd, hend, hU, hbal, hbr⟩ := placeBid_ok_inv hok
  rcases hbr with ⟨eb, hB, dbF, hfz, rfl⟩ | ⟨hB, dbF, hfz, rfl⟩
  · have hFm := IMoney_freeze hfz h
    have hf := checkAntiSniping_fields cfg now
      { dbF with
        bids := updBids (fun b => { b with amount := eb.amount + a }) eb.bidId dbF.bids }
      rnd { eb with amount := eb.amount + a }
    exact IMoney_congr (hf.1.trans rfl) (hf.2.1.trans rfl) hFm
  · have h1 : IMoney { db with
        bids := db.bids ++ [newBidDoc db uid aid rnd a now],
        nextId := db.nextId + 1 } := IMoney_congr rfl rfl h
    have hFm := IMoney_freeze hfz h1
    have hf := checkAntiSniping_fields cfg now dbF rnd (newBidDoc db uid aid rnd a now)
    exact IMoney_congr hf.1 hf.2.1 hFm

lemma IMoney_settleLoop {rnd : RoundDoc} {base : Int} {wc : Nat} :
    ∀ {bs : List BidDoc} {i : Nat} {db db1 : DB} {ts : Int},
    settleLoop rnd base wc bs i db = .ok (db1, ts) → IMoney db → IMoney db1 := by
  intro bs
  induction bs with
  | nil =>
    intro i db db1 ts hok h
    unfold settleLoop at hok
    injection hok with hok
    have h1 : db = db1 := congrArg Prod.fst hok
    subst h1
    exact h
  | cons b bs ih =>
    intro i db db1 ts hok h
    unfold settleLoop at hok
    split at hok
    · cases hpw : processWin { db with bids := updBids (fun bb =>
          { bb with status := BidStatus.won, wonInRound := some rnd.roundNumber,
                    itemNumber := some (base + (i : Int)) }) b.bidId db.bids }
        b.userId b.amount b.auctionId b.bidId with
      | error e => rw [hpw] at hok; exact absurd hok (by simp)
      | ok db2 =>
        simp only [hpw] at hok
        cases hrec : settleLoop rnd base wc bs (i + 1) db2 with
        | error e => rw [hrec] at hok; exact absurd hok (by simp)
        | ok p =>
          obtain ⟨db3, ts2⟩ := p
          simp only [hrec] at hok
          injection hok with hok
          have h31 : db3 = db1 := congrArg Prod.fst hok
          have h2 := IMoney_processWin hpw (IMoney_congr rfl rfl h)
          rw [← h31]
          exact ih hrec h2
    · cases hrf : refund { db with bids := updBids (fun bb =>
          { bb with status := BidStatus.refunded }) b.bidId db.bids }
        b.userId b.amount b.auctionId b.bidId with
      | error e => rw [hrf] at hok; exact absurd hok (by simp)
      | ok db2 =>
        simp only [hrf] at hok
        have h2 := IMoney_refund hrf (IMoney_congr rfl rfl h)
        exact ih hok h2

/-- `settleLoop` only touches `users`, `bids` and `txs`. -/
lemma settleLoop_fields {rnd : RoundDoc} {base : Int} {wc : Nat} :
    ∀ {bs : List BidDoc} {i : Nat} {db db1 : DB} {ts : Int},
    settleLoop rnd base wc bs i db = .ok (db1, ts) →
    db1.rounds = db.rounds ∧ db1.auctions = db.auctions ∧
    db1.jobs = db.jobs ∧ db1.nextId = db.nextId := by
  intro bs
  induction bs with
  | nil =>
    intro i db db1 ts hok
    unfold settleLoop at hok
    injection hok with hok
    have h1 : db = db1 := congrArg Prod.fst hok
    subst h1
    exact ⟨rfl, rfl, rfl, rfl⟩
  | cons b bs ih =>
    intro i db db1 ts hok
    unfold settleLoop at hok
    split at hok
    · cases hpw : processWin { db with bids := updBids (fun bb =>
          { bb with status := BidStatus.won, wonInRound := some rnd.roundNumber,
                    itemNumber := some (base + (i : Int)) }) b.bidId db.bids }
        b.userId b.amount b.auctionId b.bidId with
      | error e => rw [hpw] at hok; exact absurd hok (by simp)
      | ok db2 =>
        simp only [hpw] at hok
        cases hrec : settleLoop rnd base wc bs (i + 1) db2 with
        | error e => rw [hrec] at hok; exact absurd hok (by simp)
        | ok p =>
          obtain ⟨db3, ts2⟩ := p
          simp only [hrec] at hok
          injection hok with hok
          have h31 : db3 = db1 := congrArg Prod.fst hok
          obtain ⟨u, hfind, hfro, rfl⟩ := processWin_ok_shape hpw
          have hr := ih hrec
          rw [← h31]
          exact hr
    · cases hrf : refund { db with bids := updBids (fun bb =>
          { bb with status := BidStatus.refunded }) b.bidId db.bids }
        b.userId b.amount b.auctionId b.bidId with
      | error e => rw [hrf] at hok; exact absurd hok (by simp)
      | ok db2 =>
        simp only [hrf] at hok
        obtain ⟨u, hfind, hfro, rfl⟩ := refund_ok_shape hrf
        have hr := ih hok
        exact hr

lemma setRoundStatus_users (db : DB) (rid : Nat) (st : RoundStatus) :
    (setRoundStatus db rid st).users = db.users := rfl

lemma setRoundStatus_bids (db : DB) (rid : Nat) (st : RoundStatus) :
    (setRoundStatus db rid st).bids = db.bids := rfl

lemma setRoundStatus_auctions (db : DB) (rid : Nat) (st : RoundStatus) :
    (setRoundStatus db rid st).auctions = db.auctions := rfl

lemma setRoundStatus_txs (db : DB) (rid : Nat) (st : RoundStatus) :
    (setRoundStatus db rid st).txs = db.txs := rfl

lemma setRoundStatus_nextId (db : DB) (rid : Nat) (st : RoundStatus) :
    (setRoundStatus db rid st).nextId = db.nextId := rfl

lemma setRoundStatus_rounds (db : DB) (rid : Nat) (st : RoundStatus) :
    (setRoundStatus db rid st).rounds =
      updRounds (fun r => { r with status := st }) rid db.rounds := rfl

/-- `processRound` when the CAS `active → processing` fails: no mutation. -/
lemma processRound_cas_fail {db : DB} {rid : Nat} (now : Nat)
    (hR : findActiveRoundById db.rounds rid = none) :
    processRound now db rid = db := by
  unfold processRound
  rw [hR]

/-- `processRound` when the parent auction is missing: the round is set back
to `active` inside the transaction, nothing else changes. -/
lemma processRound_no_auction {db : DB} {rid : Nat} {rnd : RoundDoc} (now : Nat)
    (hR : findActiveRoundById db.rounds rid = some rnd)
    (hA : findAuction db.auctions rnd.auctionId = none) :
    processRound now db rid =
      setRoundStatus (setRoundStatus db rid RoundStatus.processing) rid
        RoundStatus.active := by
  unfold processRound
  simp only [hR, setRoundStatus_auctions, hA]

/-- `processRound` when the settlement loop throws: the transaction is
aborted and the catch handler resets the round to `active`. -/
lemma processRound_settle_error {db : DB} {rid : Nat} {rnd : RoundDoc}
    {auction : AuctionDoc} {e : String} (now : Nat)
    (hR : findActiveRoundById db.rounds rid = some rnd)
    (hA : findAuction db.auctions rnd.auctionId = some auction)
    (hS : settleLoop rnd ((auction.distributedItems : Int) + 1)
        (min rnd.winnersCount (sortBids (activeBidsOfRound db.bids rnd.roundId)).length)
        (sortBids (activeBidsOfRound db.bids rnd.roundId)) 0
        (setRoundStatus db rid RoundStatus.processing) = .error e) :
    processRound now db rid = setRoundStatus db rid RoundStatus.active := by
  unfold processRound
  simp only [hR, setRoundStatus_auctions, hA, setRoundStatus_bids, hS]

/-- Shape of `processRound` after a successful settlement: users, ledger and
bids are those of the settled state; the settled round is `completed` and at
most a fresh next round is appended; the auction's statistics are updated by
the running-mean formula. -/
lemma processRound_settle_ok {db : DB} {rid : Nat} {rnd : RoundDoc}
    {auction : AuctionDoc} {db1 : DB} {ts : Int} (now : Nat)
    (hR : findActiveRoundById db.rounds rid = some rnd)
    (hA : findAuction db.auctions rnd.auctionId = some auction)
    (hS : settleLoop rnd ((auction.distributedItems : Int) + 1)
        (min rnd.winnersCount (sortBids (activeBidsOfRound db.bids rnd.roundId)).length)
        (sortBids (activeBidsOfRound db.bids rnd.roundId)) 0
        (setRoundStatus db rid RoundStatus.processing) = .ok (db1, ts)) :
    (processRound now db rid).users = db1.users ∧
    (processRound now db rid).txs = db1.txs ∧
    (processRound now db rid).bids = db1.bids ∧
    (∃ tail : List RoundDoc,
      (∀ r ∈ tail, r.roundId = db1.nextId ∧ r.status = RoundStatus.active) ∧
      (processRound now db rid).rounds =
        updRounds (fun r => { r with status := RoundStatus.completed }) rid db1.rounds
          ++ tail) ∧
    (∃ auction2 : AuctionDoc,
      findAuction (processRound now db rid).auctions auction.auctionId = some auction2 ∧
      auction2.distributedItems = auction.distributedItems +
        min rnd.winnersCount (sortBids (activeBidsOfRound db.bids rnd.roundId)).length ∧
      auction2.avgPrice = (if 0 < auction.distributedItems +
            min rnd.winnersCount (sortBids (activeBidsOfRound db.bids rnd.roundId)).length then
          (auction.avgPrice * (auction.distributedItems : ℚ) + (ts : ℚ)) /
            ((auction.distributedItems +
              min rnd.winnersCount
                (sortBids (activeBidsOfRound db.bids rnd.roundId)).length : Nat) : ℚ)
          else 0)) := by
  have hflds := settleLoop_fields hS
  have hAuc1 : findAuction db1.auctions auction.auctionId = some auction := by
    rw [hflds.2.1, setRoundStatus_auctions, findAuction_eq_id hA]
    exact hA
  unfold processRound
  simp only [hR, setRoundStatus_auctions, hA, setRoundStatus_bids, hS]
  split
  · refine ⟨rfl, rfl, rfl, ⟨_, ?_, rfl⟩, ?_⟩
    · intro r hr
      simp only [List.mem_singleton] at hr
      subst hr
      exact ⟨rfl, rfl⟩
    · refine ⟨_, findAuction_double_upd
        (fun a => { a with
          distributedItems := auction.distributedItems +
            min rnd.winnersCount (sortBids (activeBidsOfRound db.bids rnd.roundId)).length,
          avgPrice := if 0 < auction.distributedItems +
              min rnd.winnersCount (sortBids (activeBidsOfRound db.bids rnd.roundId)).length then
            (auction.avgPrice * (auction.distributedItems : ℚ) + (ts : ℚ)) /
              ((auction.distributedItems +
                min rnd.winnersCount
                  (sortBids (activeBidsOfRound db.bids rnd.roundId)).length : Nat) : ℚ)
          else 0 })
        (fun a => { a with currentRound := rnd.roundNumber + 1 })
        (fun a => rfl) (fun a => rfl) hAuc1, rfl, rfl⟩
  · refine ⟨rfl, rfl, rfl, ⟨[], by simp, by rw [List.append_nil]; exact rfl⟩, ?_⟩
    refine ⟨_, findAuction_double_upd
      (fun a => { a with
        distributedItems := auction.distributedItems +
          min rnd.winnersCount (sortBids (activeBidsOfRound db.bids rnd.roundId)).length,
        avgPrice := if 0 < auction.distributedItems +
            min rnd.winnersCount (sortBids (activeBidsOfRound db.bids rnd.roundId)).length then
          (auction.avgPrice * (auction.distributedItems : ℚ) + (ts : ℚ)) /
            ((auction.distributedItems +
              min rnd.winnersCount
                (sortBids (activeBidsOfRound db.bids rnd.roundId)).length : Nat) : ℚ)
        else 0 })
      (fun a => { a with status := AuctionStatus.completed })
      (fun a => rfl) (fun a => rfl) hAuc1, rfl, rfl⟩

lemma IMoney_processRound {now : Nat} {db : DB} {rid : Nat} (h : IMoney db) :
    IMoney (processRound now db rid) := by
  cases hR : findActiveRoundById db.rounds rid with
  | none => rw [processRound_cas_fail now hR]; exact h
  | some rnd =>
    cases hA : findAuction db.auctions rnd.auctionId with
    | none => rw [processRound_no_auction now hR hA]; exact IMoney_congr rfl rfl h
    | some auction =>
      cases hS : settleLoop rnd ((auction.distributedItems : Int) + 1)
          (min rnd.winnersCount (sortBids (activeBidsOfRound db.bids rnd.roundId)).length)
          (sortBids (activeBidsOfRound db.bids rnd.roundId)) 0
          (setRoundStatus db rid RoundStatus.processing) with
      | error e =>
        rw [processRound_settle_error now hR hA hS]
        exact IMoney_congr rfl rfl h
      | ok p =>
        obtain ⟨db1, ts⟩ := p
        have hsh := processRound_settle_ok now hR hA hS
        have h1 : IMoney db1 := IMoney_settleLoop hS (IMoney_congr rfl rfl h)
        exact IMoney_congr hsh.1 hsh.2.1 h1

lemma imoney_sum {us : List UserDoc} {txs : List Tx}
    (h : ∀ u ∈ us, u.balance + u.frozenBalance =
      sumTx txs u.userId TxType.deposit - sumTx txs u.userId TxType.win) :
    (us.map (fun u => sumTx txs u.userId TxType.deposit)).sum
      = (us.map (fun u => u.balance + u.frozenBalance)).sum
        + (us.map (fun u => sumTx txs u.userId TxType.win)).sum := by
  induction us with
  | nil => simp
  | cons u us ih =>
    simp only [List.map_cons, List.sum_cons]
    rw [ih (fun v hv => h v (List.mem_cons_of_mem _ hv))]
    have hu := h u (by simp)
    omega

/-- C1 counterexample: the invariant does not hold unconditionally at the
program's quiescent points.  `POST /api/users/login` creates a user with
`balance = 10000` and no `deposit` ledger entry, so after that user's next
committed deposit — a quiescent point the claim quantifies over — the
equation `available + frozen = Σ deposits − Σ win` reads `10500 = 500` and
fails. -/
theorem imoney_login_cex :
    deposit (loginOrRegister ⟨[], [], [], [], [], [], 1⟩ "m").1 1 500 =
      .ok ⟨[⟨1, "m", 10500, 0⟩], [], [], [],
           [⟨1, TxType.deposit, 500, none, none, 10000, 10500⟩], [], 2⟩ ∧
    ¬ IMoney ⟨[⟨1, "m", 10500, 0⟩], [], [], [],
              [⟨1, TxType.deposit, 500, none, none, 10000, 10500⟩], [], 2⟩ := by
  refine ⟨rfl, fun h => ?_⟩
  have h1 := h ⟨1, "m", 10500, 0⟩ (by simp)
  revert h1
  decide

/-- C1 (amended): every quiescent-point *operation* of the balance ledger
(deposit, freeze, unfreeze, win consumption, refund, bid placement, round
settlement) preserves I-MONEY — per user,
`available + frozen = Σ deposits − Σ win`, and summing over all users,
`Σ deposits = Σ (available + frozen) + Σ won`.  The invariant therefore
holds of every state reachable from a ledger-consistent one by these
operations; it is user creation via the login route (which mints 10000
outside the ledger, see `imoney_login_cex`) that breaks it. -/
theorem imoney_preserved (db : DB) (o : Op) (h : IMoney db) :
    IMoney (applyOp db o) ∧
    ((applyOp db o).users.map
        (fun u => sumTx (applyOp db o).txs u.userId TxType.deposit)).sum
      = ((applyOp db o).users.map (fun u => u.balance + u.frozenBalance)).sum
        + ((applyOp db o).users.map
            (fun u => sumTx (applyOp db o).txs u.userId TxType.win)).sum := by
  have hi : IMoney (applyOp db o) := by
    cases o with
    | deposit uid a =>
      cases hop : deposit db uid a with
      | ok db1 => simpa only [applyOp, hop] using IMoney_deposit hop h
      | error e => simpa only [applyOp, hop] using h
    | freeze uid a aid bid =>
      cases hop : freeze db uid a aid bid with
      | ok db1 => simpa only [applyOp, hop] using IMoney_freeze hop h
      | error e => simpa only [applyOp, hop] using h
    | unfreeze uid a aid bid =>
      cases hop : unfreeze db uid a aid bid with
      | ok db1 => simpa only [applyOp, hop] using IMoney_unfreeze hop h
      | error e => simpa only [applyOp, hop] using h
    | processWin uid a aid bid =>
      cases hop : processWin db uid a aid bid with
      | ok db1 => simpa only [applyOp, hop] using IMoney_processWin hop h
      | error e => simpa only [applyOp, hop] using h
    | refund uid a aid bid =>
      cases hop : refund db uid a aid bid with
      | ok db1 => simpa only [applyOp, hop] using IMoney_refund hop h
      | error e => simpa only [applyOp, hop] using h
    | placeBid cfg now uid aid a =>
      cases hop : placeBid cfg now db uid aid a with
      | ok r => simpa only [applyOp, hop] using IMoney_placeBid hop h
      | error e => simpa only [applyOp, hop] using h
    | processRound now rid =>
      simpa only [applyOp] using @IMoney_processRound now db rid h
  exact ⟨hi, imoney_sum hi⟩



/-- Witness for C1: a concrete state satisfying I-MONEY, preserved through a
deposit. -/
theorem imoney_preserved_witness :
    IMoney wMoneyDB ∧
    (IMoney (applyOp wMoneyDB (Op.deposit 1 5)) ∧
     ((applyOp wMoneyDB (Op.deposit 1 5)).users.map
         (fun u => sumTx (applyOp wMoneyDB (Op.deposit 1 5)).txs u.userId TxType.deposit)).sum
       = ((applyOp wMoneyDB (Op.deposit 1 5)).users.map
           (fun u => u.balance + u.frozenBalance)).sum
         + ((applyOp wMoneyDB (Op.deposit 1 5)).users.map
             (fun u => sumTx (applyOp wMoneyDB (Op.deposit 1 5)).txs u.userId TxType.win)).sum) :=
  have hm : IMoney wMoneyDB := by
    unfold IMoney
    decide
  ⟨hm, imoney_preserved wMoneyDB (Op.deposit 1 5) hm⟩

/-! ## C2 — insufficient funds rejects the bid and leaves the state unchanged -/

/-- C2: when the user's available balance is strictly below the requested
amount (and the request passes the earlier admission guards), `placeBid`
throws `Insufficient balance`; the transaction aborts, so the committed
state is unchanged: no bid document, no ledger entry, no balance change. -/
theorem placeBid_insufficient_funds (cfg : Config) (now : Nat) (db : DB) (uid aid : Nat)
    (a : Int) (auction : AuctionDoc) (rnd : RoundDoc) (user : UserDoc)
    (hA : findAuction db.auctions aid = some auction)
    (hst : auction.status = AuctionStatus.active)
    (hmin : ¬ a < auction.minBid)
    (hRd : findActiveRoundOfAuction db.rounds aid = some rnd)
    (hend : ¬ rnd.endAt < now)
    (hU : findUser db.users uid = some user)
    (hbal : user.balance < a) :
    placeBid cfg now db uid aid a = .error "Insufficient balance" ∧
    applyOp db (Op.placeBid cfg now uid aid a) = db ∧
    (applyOp db (Op.placeBid cfg now uid aid a)).bids = db.bids ∧
    (applyOp db (Op.placeBid cfg now uid aid a)).txs = db.txs ∧
    (applyOp db (Op.placeBid cfg now uid aid a)).users = db.users := by
  have herr : placeBid cfg now db uid aid a = .error "Insufficient balance" := by
    unfold placeBid
    simp only [hA]
    rw [if_neg (by simp [hst])]
    rw [if_neg hmin]
    simp only [hRd]
    rw [if_neg hend]
    simp only [hU]
    cases hB : findActiveBid db.bids aid rnd.roundId uid with
    | some eb =>
      simp only [hB]
      rw [if_pos hbal]
    | none =>
      simp only [hB]
      rw [if_pos hbal]
  have hst2 : applyOp db (Op.placeBid cfg now uid aid a) = db := by
    simp only [applyOp, herr]
  exact ⟨herr, hst2, by rw [hst2], by rw [hst2], by rw [hst2]⟩





/-- Witness for C2: user with 50 available bids 100 → rejected, state
unchanged. -/
theorem placeBid_insufficient_funds_witness :
    placeBid wCfg 500 wInsDB 3 1 100 = .error "Insufficient balance" ∧
    applyOp wInsDB (Op.placeBid wCfg 500 3 1 100) = wInsDB ∧
    (applyOp wInsDB (Op.placeBid wCfg 500 3 1 100)).bids = wInsDB.bids ∧
    (applyOp wInsDB (Op.placeBid wCfg 500 3 1 100)).txs = wInsDB.txs ∧
    (applyOp wInsDB (Op.placeBid wCfg 500 3 1 100)).users = wInsDB.users :=
  placeBid_insufficient_funds wCfg 500 wInsDB 3 1 100 wInsAuction wInsRound wInsUser
    rfl rfl (by decide) rfl (by decide) rfl (by decide)

/-! ## C5 — settlement statistics update -/

lemma settleLoop_totalSpent {rnd : RoundDoc} {base : Int} {wc : Nat} :
    ∀ {bs : List BidDoc} {i : Nat} {db db1 : DB} {ts : Int},
    settleLoop rnd base wc bs i db = .ok (db1, ts) → ts = winSum wc bs i := by
  intro bs
  induction bs with
  | nil =>
    intro i db db1 ts hok
    unfold settleLoop at hok
    injection hok with hok
    have h2 : (0 : Int) = ts := congrArg Prod.snd hok
    rw [← h2]
    rfl
  | cons b bs ih =>
    intro i db db1 ts hok
    unfold settleLoop at hok
    split at hok
    · next hi =>
      cases hpw : processWin { db with bids := updBids (fun bb =>
            { bb with status := BidStatus.won, wonInRound := some rnd.roundNumber,
                      itemNumber := some (base + (i : Int)) }) b.bidId db.bids }
          b.userId b.amount b.auctionId b.bidId with
      | error e => rw [hpw] at hok; exact absurd hok (by simp)
      | ok db2 =>
        simp only [hpw] at hok
        cases hrec : settleLoop rnd base wc bs (i + 1) db2 with
        | error e => rw [hrec] at hok; exact absurd hok (by simp)
        | ok p =>
          obtain ⟨db3, ts2⟩ := p
          simp only [hrec] at hok
          injection hok with hok
          have h2 : ts2 + b.amount = ts := congrArg Prod.snd hok
          rw [← h2, ih hrec]
          show winSum wc bs (i + 1) + b.amount =
            winSum wc bs (i + 1) + (if i < wc then b.amount else 0)
          rw [if_pos hi]
    · next hi =>
      cases hrf : refund { db with bids := updBids (fun bb =>
            { bb with status := BidStatus.refunded }) b.bidId db.bids }
          b.userId b.amount b.auctionId b.bidId with
      | error e => rw [hrf] at hok; exact absurd hok (by simp)
      | ok db2 =>
        simp only [hrf] at hok
        rw [ih hok]
        show winSum wc bs (i + 1) =
          winSum wc bs (i + 1) + (if i < wc then b.amount else 0)
        rw [if_neg hi, add_zero]

lemma winSum_eq_take (wc : Nat) :
    ∀ (bs : List BidDoc) (i : Nat),
    winSum wc bs i = ((bs.take (wc - i)).map (fun b => b.amount)).sum := by
  intro bs
  induction bs with
  | nil => intro i; simp [winSum]
  | cons b bs ih =>
    intro i
    unfold winSum
    by_cases hi : i < wc
    · rw [if_pos hi]
      have hsub : wc - i = (wc - (i + 1)) + 1 := by omega
      rw [hsub]
      simp only [List.take_succ_cons, List.map_cons, List.sum_cons]
      rw [ih (i + 1)]
      ring
    · rw [if_neg hi]
      have hsub : wc - i = 0 := by omega
      have hsub2 : wc - (i + 1) = 0 := by omega
      rw [hsub]
      rw [ih (i + 1), hsub2]
      simp

/-- C5: settlement updates the auction statistics exactly as
`newDistributed = distributedItems + W`; `avgPrice` becomes
`(avgPrice·distributedItems + totalSpent) / newDistributed` (0 when
`newDistributed = 0`); and `totalSpent` is the sum of the first `W` ranked
bid amounts. -/
theorem processRound_stats (now : Nat) (db : DB) (rid : Nat) (rnd : RoundDoc)
    (auction : AuctionDoc) (db1 : DB) (ts : Int)
    (hR : findActiveRoundById db.rounds rid = some rnd)
    (hA : findAuction db.auctions rnd.auctionId = some auction)
    (hS : settleLoop rnd ((auction.distributedItems : Int) + 1)
        (min rnd.winnersCount (sortBids (activeBidsOfRound db.bids rnd.roundId)).length)
        (sortBids (activeBidsOfRound db.bids rnd.roundId)) 0
        (setRoundStatus db rid RoundStatus.processing) = .ok (db1, ts)) :
    ∃ auction2 : AuctionDoc,
      findAuction (processRound now db rid).auctions auction.auctionId = some auction2 ∧
      auction2.distributedItems = auction.distributedItems +
        min rnd.winnersCount (sortBids (activeBidsOfRound db.bids rnd.roundId)).length ∧
      auction2.avgPrice = (if 0 < auction.distributedItems +
            min rnd.winnersCount (sortBids (activeBidsOfRound db.bids rnd.roundId)).length then
          (auction.avgPrice * (auction.distributedItems : ℚ) + (ts : ℚ)) /
            ((auction.distributedItems +
              min rnd.winnersCount
                (sortBids (activeBidsOfRound db.bids rnd.roundId)).length : Nat) : ℚ)
          else 0) ∧
      ts = (((sortBids (activeBidsOfRound db.bids rnd.roundId)).take
          (min rnd.winnersCount
            (sortBids (activeBidsOfRound db.bids rnd.roundId)).length)).map
          (fun b => b.amount)).sum := by
  obtain ⟨auction2, hfind, hdist, havg⟩ := (processRound_settle_ok now hR hA hS).2.2.2.2
  refine ⟨auction2, hfind, hdist, havg, ?_⟩
  rw [settleLoop_totalSpent hS, winSum_eq_take]
  simp









/-- Witness for C5, at the concrete two-bid one-winner state. -/
theorem processRound_stats_witness :
    ∃ auction2 : AuctionDoc,
      findAuction (processRound 10000 wSetDB 2).auctions wSetAuction.auctionId =
        some auction2 ∧
      auction2.distributedItems = wSetAuction.distributedItems +
        min wSetRound.winnersCount
          (sortBids (activeBidsOfRound wSetDB.bids wSetRound.roundId)).length ∧
      auction2.avgPrice = (if 0 < wSetAuction.distributedItems +
            min wSetRound.winnersCount
              (sortBids (activeBidsOfRound wSetDB.bids wSetRound.roundId)).length then
          (wSetAuction.avgPrice * (wSetAuction.distributedItems : ℚ) + ((150 : Int) : ℚ)) /
            ((wSetAuction.distributedItems +
              min wSetRound.winnersCount
                (sortBids (activeBidsOfRound wSetDB.bids wSetRound.roundId)).length : Nat) : ℚ)
          else 0) ∧
      (150 : Int) = (((sortBids (activeBidsOfRound wSetDB.bids wSetRound.roundId)).take
          (min wSetRound.winnersCount
            (sortBids (activeBidsOfRound wSetDB.bids wSetRound.roundId)).length)).map
          (fun b => b.amount)).sum :=
  processRound_stats 10000 wSetDB 2 wSetRound wSetAuction wSetDB1 150 rfl rfl rfl

/-! ## Round status lemmas shared by C7 and C9 -/

lemma map_self_of_eq {α : Type} (f : α → α) :
    ∀ (l : List α), (∀ a ∈ l, f a = a) → l.map f = l
  | [], _ => rfl
  | x :: xs, h => by
    simp only [List.map_cons]
    rw [h x (by simp), map_self_of_eq f xs (fun a ha => h a (List.mem_cons_of_mem _ ha))]

lemma findRound_eq_id {rs : List RoundDoc} {k : Nat} {r : RoundDoc}
    (h : findRound rs k = some r) : r.roundId = k := by
  induction rs with
  | nil => exact absurd h (by simp [findRound])
  | cons x rs ih =>
    unfold findRound at h
    split at h
    · next hc => injection h with h; rw [← h]; exact hc
    · exact ih h

lemma findRound_exists_of_active {rs : List RoundDoc} {rid : Nat} {rnd : RoundDoc}
    (h : findActiveRoundById rs rid = some rnd) : ∃ r0, findRound rs rid = some r0 := by
  induction rs with
  | nil => exact absurd h (by simp [findActiveRoundById])
  | cons x rs ih =>
    unfold findActiveRoundById at h
    unfold findRound
    split at h
    · next hc => exact ⟨x, by rw [if_pos hc.1]⟩
    · by_cases hx : x.roundId = rid
      · exact ⟨x, by rw [if_pos hx]⟩
      · rw [if_neg hx]
        exact ih h

lemma roundDoc_status_eta {r : RoundDoc} {st : RoundStatus} (h : r.status = st) :
    ({ r with status := st } : RoundDoc) = r := by
  cases r
  simp_all

lemma pairwise_roundId_unique {rs : List RoundDoc}
    (h : rs.Pairwise (fun a b => a.roundId ≠ b.roundId)) :
    ∀ r1 ∈ rs, ∀ r2 ∈ rs, r1.roundId = r2.roundId → r1 = r2 := by
  induction rs with
  | nil => intro r1 h1; exact absurd h1 (List.not_mem_nil r1)
  | cons x rs ih =>
    have hx := List.pairwise_cons.mp h
    intro r1 h1 r2 h2 heq
    rcases List.mem_cons.mp h1 with h1e | h1t
    · rcases List.mem_cons.mp h2 with h2e | h2t
      · rw [h1e, h2e]
      · subst h1e
        exact absurd heq (hx.1 r2 h2t)
    · rcases List.mem_cons.mp h2 with h2e | h2t
      · subst h2e
        exact absurd heq.symm (hx.1 r1 h1t)
      · exact ih hx.2 r1 h1t r2 h2t heq

/-- With unique round ids, resetting the already-`active` round to `active`
is a no-op. -/
lemma setRoundStatus_active_noop {db : DB} {rid : Nat} {rnd : RoundDoc}
    (huniq : db.rounds.Pairwise (fun a b => a.roundId ≠ b.roundId))
    (hR : findActiveRoundById db.rounds rid = some rnd) :
    setRoundStatus db rid RoundStatus.active = db := by
  have hf := findActiveRoundById_found hR
  have hmem : ∀ r ∈ db.rounds,
      (if r.roundId = rid then ({ r with status := RoundStatus.active } : RoundDoc) else r)
        = r := by
    intro r hr
    by_cases hid : r.roundId = rid
    · rw [if_pos hid]
      have hreq : r = rnd :=
        pairwise_roundId_unique huniq r hr rnd hf.2.2 (by rw [hid, hf.1])
      exact roundDoc_status_eta (by rw [hreq]; exact hf.2.1)
    · rw [if_neg hid]
  unfold setRoundStatus updRounds
  rw [map_self_of_eq _ _ hmem]

/-- The auction-missing path's `processing` write followed by the `active`
restore leaves the state unchanged (with unique round ids). -/
lemma setRoundStatus_restore {db : DB} {rid : Nat} {rnd : RoundDoc}
    (huniq : db.rounds.Pairwise (fun a b => a.roundId ≠ b.roundId))
    (hR : findActiveRoundById db.rounds rid = some rnd) :
    setRoundStatus (setRoundStatus db rid RoundStatus.processing) rid RoundStatus.active
      = db := by
  have hf := findActiveRoundById_found hR
  unfold setRoundStatus updRounds
  rw [List.map_map]
  have hmem : ∀ r ∈ db.rounds,
      ((fun r => if r.roundId = rid then ({ r with status := RoundStatus.active } : RoundDoc)
          else r) ∘
       (fun r => if r.roundId = rid then ({ r with status := RoundStatus.processing } : RoundDoc)
          else r)) r = r := by
    intro r hr
    by_cases hid : r.roundId = rid
    · simp only [Function.comp_apply, if_pos hid]
      have hreq : r = rnd :=
        pairwise_roundId_unique huniq r hr rnd hf.2.2 (by rw [hid, hf.1])
      exact roundDoc_status_eta (by rw [hreq]; exact hf.2.1)
    · simp only [Function.comp_apply, if_neg hid]
  rw [map_self_of_eq _ _ hmem]

lemma findActiveRoundById_none {rs : List RoundDoc} {rid : Nat}
    (h : ∀ r ∈ rs, ¬(r.roundId = rid ∧ r.status = RoundStatus.active)) :
    findActiveRoundById rs rid = none := by
  induction rs with
  | nil => rfl
  | cons x rs ih =>
    unfold findActiveRoundById
    rw [if_neg (h x (by simp))]
    exact ih (fun r hr => h r (List.mem_cons_of_mem _ hr))

/-! ## C9 — the `processing` state's outgoing transitions -/





/-- C9 counterexample: a settlement in which the CAS succeeds (round active,
auction present) but the loop throws; `processRound`'s catch resets the
round to `active`, not `completed` — contradicting the claim that every
non-auction-missing execution takes `processing` only to `completed`. -/
theorem processing_revert_cex :
    findActiveRoundById wErrDB.rounds 1 = some wErrRound ∧
    findAuction wErrDB.auctions wErrRound.auctionId = some wErrAuction ∧
    settleLoop wErrRound 1 1 (sortBids (activeBidsOfRound wErrDB.bids 1)) 0
      (setRoundStatus wErrDB 1 RoundStatus.processing) = .error "User not found" ∧
    (findRound (processRound 100 wErrDB 1).rounds 1).map (fun r => r.status) =
      some RoundStatus.active ∧
    ¬ (findRound (processRound 100 wErrDB 1).rounds 1).map (fun r => r.status) =
      some RoundStatus.completed :=
  ⟨rfl, rfl, rfl, rfl, by decide⟩

/-- C9 amended: once the CAS takes the round from `active` to `processing`
(round active, parent auction present), a successful settlement commits
status `completed`, while a thrown error aborts the transaction and the
catch handler resets the round to `active` for retry — so an error
execution ends `active`, not `completed`. -/
theorem round_status_transitions (now : Nat) (db : DB) (rid : Nat) (rnd : RoundDoc)
    (auction : AuctionDoc)
    (hR : findActiveRoundById db.rounds rid = some rnd)
    (hA : findAuction db.auctions rnd.auctionId = some auction) :
    (∀ e, settleLoop rnd ((auction.distributedItems : Int) + 1)
        (min rnd.winnersCount (sortBids (activeBidsOfRound db.bids rnd.roundId)).length)
        (sortBids (activeBidsOfRound db.bids rnd.roundId)) 0
        (setRoundStatus db rid RoundStatus.processing) = .error e →
      (findRound (processRound now db rid).rounds rid).map (fun r => r.status) =
        some RoundStatus.active) ∧
    (∀ p : DB × Int, settleLoop rnd ((auction.distributedItems : Int) + 1)
        (min rnd.winnersCount (sortBids (activeBidsOfRound db.bids rnd.roundId)).length)
        (sortBids (activeBidsOfRound db.bids rnd.roundId)) 0
        (setRoundStatus db rid RoundStatus.processing) = .ok p →
      (findRound (processRound now db rid).rounds rid).map (fun r => r.status) =
        some RoundStatus.completed) := by
  obtain ⟨r0, hr0⟩ := findRound_exists_of_active hR
  have hr0id := findRound_eq_id hr0
  constructor
  · intro e hE
    rw [processRound_settle_error now hR hA hE, setRoundStatus_rounds,
        findRound_updRounds (fun r => { r with status := RoundStatus.active })
          (fun r => rfl) rid db.rounds rid, hr0]
    simp only [Option.map_some']
    rw [if_pos hr0id]
  · intro p hOk
    obtain ⟨db1, ts⟩ := p
    obtain ⟨tail, htail, hrounds⟩ := (processRound_settle_ok now hR hA hOk).2.2.2.1
    have h1 : findRound db1.rounds rid = some { r0 with status := RoundStatus.processing } := by
      rw [(settleLoop_fields hOk).1, setRoundStatus_rounds,
          findRound_updRounds (fun r => { r with status := RoundStatus.processing })
            (fun r => rfl) rid db.rounds rid, hr0]
      simp only [Option.map_some']
      rw [if_pos hr0id]
    have h2 : findRound (updRounds (fun r => { r with status := RoundStatus.completed }) rid
        db1.rounds) rid = some { r0 with status := RoundStatus.completed } := by
      rw [findRound_updRounds (fun r => { r with status := RoundStatus.completed })
            (fun r => rfl) rid db1.rounds rid, h1]
      simp only [Option.map_some']
      rw [if_pos (show ({ r0 with status := RoundStatus.processing } : RoundDoc).roundId = rid
        from hr0id)]
    rw [hrounds, findRound_append_left h2]
    rfl

/-- Witness for the amended C9 on the error path, at the concrete state
whose settlement throws `User not found`. -/
theorem round_status_transitions_witness :
    (findRound (processRound 100 wErrDB 1).rounds 1).map (fun r => r.status) =
      some RoundStatus.active :=
  (round_status_transitions 100 wErrDB 1 wErrRound wErrAuction rfl rfl).1 "User not found" rfl

/-! ## C7 — settlement is idempotent -/

/-- C7: with well-formed (unique, fresh-bounded) round ids, running
`processRound` twice on the same round leaves exactly the state of running
it once: the second invocation's CAS `active → processing` fails (the round
is no longer active) — and on the retry paths (missing auction, aborted
settlement) both runs leave the state unchanged. -/
theorem processRound_idempotent (now1 now2 : Nat) (db : DB) (rid : Nat)
    (h : RoundIdsOk db) :
    processRound now2 (processRound now1 db rid) rid = processRound now1 db rid := by
  obtain ⟨huniq, hfresh⟩ := h
  cases hR : findActiveRoundById db.rounds rid with
  | none =>
    rw [processRound_cas_fail now1 hR, processRound_cas_fail now2 hR]
  | some rnd =>
    cases hA : findAuction db.auctions rnd.auctionId with
    | none =>
      have hnoop : processRound now1 db rid = db := by
        rw [processRound_no_auction now1 hR hA]
        exact setRoundStatus_restore huniq hR
      rw [hnoop, processRound_no_auction now2 hR hA, setRoundStatus_restore huniq hR]
    | some auction =>
      cases hS : settleLoop rnd ((auction.distributedItems : Int) + 1)
          (min rnd.winnersCount (sortBids (activeBidsOfRound db.bids rnd.roundId)).length)
          (sortBids (activeBidsOfRound db.bids rnd.roundId)) 0
          (setRoundStatus db rid RoundStatus.processing) with
      | error e =>
        have hnoop : processRound now1 db rid = db := by
          rw [processRound_settle_error now1 hR hA hS]
          exact setRoundStatus_active_noop huniq hR
        rw [hnoop, processRound_settle_error now2 hR hA hS,
            setRoundStatus_active_noop huniq hR]
      | ok p =>
        obtain ⟨db1, ts⟩ := p
        obtain ⟨tail, htail, hrounds⟩ := (processRound_settle_ok now1 hR hA hS).2.2.2.1
        have hnextid : db1.nextId = db.nextId := by
          rw [(settleLoop_fields hS).2.2.2, setRoundStatus_nextId]
        have hrid_lt : rid < db.nextId := by
          have hfo := findActiveRoundById_found hR
          have hlt := hfresh rnd hfo.2.2
          rw [← hfo.1]
          exact hlt
        have hnone : findActiveRoundById (processRound now1 db rid).rounds rid = none := by
          rw [hrounds]
          apply findActiveRoundById_none
          intro r hr
          rcases List.mem_append.mp hr with hr1 | hr2
          · rw [(settleLoop_fields hS).1, setRoundStatus_rounds] at hr1
            unfold updRounds at hr1
            rw [List.map_map] at hr1
            obtain ⟨r0, hr0m, rfl⟩ := List.mem_map.mp hr1
            intro hcon
            by_cases hid : r0.roundId = rid
            · simp [hid] at hcon
            · simp [Function.comp_apply, if_neg hid] at hcon
              exact hid hcon.1
          · intro hcon
            have hid2 := (htail r hr2).1
            rw [hnextid] at hid2
            have hid1 := hcon.1
            omega
        rw [processRound_cas_fail now2 hnone]




/-- Witness for C7 at a concrete state. -/
theorem processRound_idempotent_witness :
    RoundIdsOk wIdemDB ∧
    processRound 50 (processRound 40 wIdemDB 1) 1 = processRound 40 wIdemDB 1 :=
  have h : RoundIdsOk wIdemDB := ⟨by decide, by decide⟩
  ⟨h, processRound_idempotent 40 50 wIdemDB 1 h⟩

/-! ## C3 — a raise is additive -/

lemma findActiveBid_map (g : BidDoc → BidDoc)
    (h : ∀ b, (g b).auctionId = b.auctionId ∧ (g b).roundId = b.roundId ∧
      (g b).userId = b.userId ∧ (g b).status = b.status)
    (bs : List BidDoc) (aid rid uid : Nat) :
    findActiveBid (bs.map g) aid rid uid = (findActiveBid bs aid rid uid).map g := by
  induction bs with
  | nil => rfl
  | cons b bs ih =>
    simp only [List.map_cons, findActiveBid, (h b).1, (h b).2.1, (h b).2.2.1, (h b).2.2.2]
    split <;> simp [ih]

lemma findActiveBid_updBids (f : BidDoc → BidDoc)
    (hf : ∀ b, (f b).auctionId = b.auctionId ∧ (f b).roundId = b.roundId ∧
      (f b).userId = b.userId ∧ (f b).status = b.status)
    (tid : Nat) (bs : List BidDoc) (aid rid uid : Nat) :
    findActiveBid (updBids f tid bs) aid rid uid =
      (findActiveBid bs aid rid uid).map (fun b => if b.bidId = tid then f b else b) := by
  unfold updBids
  refine findActiveBid_map _ (fun b => ?_) bs aid rid uid
  dsimp only
  split
  · exact hf b
  · exact ⟨rfl, rfl, rfl, rfl⟩

lemma findActiveRoundOfAuction_map (g : RoundDoc → RoundDoc)
    (h : ∀ r, (g r).auctionId = r.auctionId ∧ (g r).status = r.status)
    (rs : List RoundDoc) (aid : Nat) :
    findActiveRoundOfAuction (rs.map g) aid = (findActiveRoundOfAuction rs aid).map g := by
  induction rs with
  | nil => rfl
  | cons r rs ih =>
    simp only [List.map_cons, findActiveRoundOfAuction, (h r).1, (h r).2]
    split <;> simp [ih]

lemma findActiveRoundOfAuction_updRounds (f : RoundDoc → RoundDoc)
    (hf : ∀ r, (f r).auctionId = r.auctionId ∧ (f r).status = r.status)
    (rid : Nat) (rs : List RoundDoc) (aid : Nat) :
    findActiveRoundOfAuction (updRounds f rid rs) aid =
      (findActiveRoundOfAuction rs aid).map (fun r => if r.roundId = rid then f r else r) := by
  unfold updRounds
  refine findActiveRoundOfAuction_map _ (fun r => ?_) rs aid
  dsimp only
  split
  · exact hf r
  · exact ⟨rfl, rfl⟩

/-- The rounds after an anti-snipe check: unchanged, or the current round's
`endAt` extended. -/
lemma checkAntiSniping_rounds (cfg : Config) (now : Nat) (db : DB) (rnd : RoundDoc)
    (bid : BidDoc) :
    (checkAntiSniping cfg now db rnd bid).1.rounds = db.rounds ∨
    (checkAntiSniping cfg now db rnd bid).1.rounds =
      updRounds (fun r => { r with endAt := rnd.endAt + cfg.antiSnipingExtension })
        rnd.roundId db.rounds := by
  by_cases hw : cfg.antiSnipingWindow < (rnd.endAt : Int) - (now : Int)
  · left
    have hc : checkAntiSniping cfg now db rnd bid = (db, false) := by
      unfold checkAntiSniping
      rw [if_pos hw]
    rw [hc]
  · by_cases htop : ((sortBids (activeBidsOfRound db.bids rnd.roundId)).take
        cfg.antiSnipingThreshold).any (fun b => decide (b.bidId = bid.bidId)) = true
    · right
      have hc : checkAntiSniping cfg now db rnd bid =
          ({ db with
             rounds := updRounds
               (fun r => { r with endAt := rnd.endAt + cfg.antiSnipingExtension })
               rnd.roundId db.rounds,
             jobs := rescheduleRoundProcessing db.jobs rnd.roundId
               (rnd.endAt + cfg.antiSnipingExtension) }, true) := by
        unfold checkAntiSniping
        rw [if_neg hw, if_pos htop]
      rw [hc]
    · left
      have hc : checkAntiSniping cfg now db rnd bid = (db, false) := by
        unfold checkAntiSniping
        rw [if_neg hw, if_neg (by simpa using htop)]
      rw [hc]

/-- Committed fields of the raise path, in terms of the post-freeze state. -/
lemma raiseResult_shape (cfg : Config) (now : Nat) (dbF : DB) (rnd : RoundDoc)
    (eb : BidDoc) (a : Int) :
    (raiseResult cfg now dbF rnd eb a).2.1 = { eb with amount := eb.amount + a } ∧
    (raiseResult cfg now dbF rnd eb a).1.users = dbF.users ∧
    (raiseResult cfg now dbF rnd eb a).1.bids =
      updBids (fun b => { b with amount := eb.amount + a }) eb.bidId dbF.bids ∧
    ((raiseResult cfg now dbF rnd eb a).1.rounds = dbF.rounds ∨
     (raiseResult cfg now dbF rnd eb a).1.rounds =
       updRounds (fun r => { r with endAt := rnd.endAt + cfg.antiSnipingExtension })
         rnd.roundId dbF.rounds) := by
  have hf := checkAntiSniping_fields cfg now
    { dbF with bids := updBids (fun b => { b with amount := eb.amount + a }) eb.bidId dbF.bids }
    rnd { eb with amount := eb.amount + a }
  have hro := checkAntiSniping_rounds cfg now
    { dbF with bids := updBids (fun b => { b with amount := eb.amount + a }) eb.bidId dbF.bids }
    rnd { eb with amount := eb.amount + a }
  exact ⟨rfl, hf.1, hf.2.2.1, hro⟩

/-- One raise step of `placeBid`: the committed state has the standing bid's
amount increased by `a`, the user's available decreased and frozen increased
by `a`, no new bid document, and an active round with the same `roundId`. -/
lemma placeBid_raise_step {cfg : Config} {now : Nat} {db : DB} {uid aid : Nat} {a : Int}
    {r : DB × BidDoc × Bool} {rnd : RoundDoc} {eb : BidDoc} {user : UserDoc}
    (hok : placeBid cfg now db uid aid a = .ok r)
    (hRd : findActiveRoundOfAuction db.rounds aid = some rnd)
    (hB : findActiveBid db.bids aid rnd.roundId uid = some eb)
    (hU : findUser db.users uid = some user) :
    r.2.1 = { eb with amount := eb.amount + a } ∧
    (∃ rnd2, findActiveRoundOfAuction r.1.rounds aid = some rnd2 ∧
      rnd2.roundId = rnd.roundId) ∧
    findActiveBid r.1.bids aid rnd.roundId uid = some { eb with amount := eb.amount + a } ∧
    findUser r.1.users uid =
      some { user with balance := user.balance - a,
                       frozenBalance := user.frozenBalance + a } ∧
    r.1.bids.length = db.bids.length := by
  obtain ⟨auction, rnd1, user1, hA1, hst1, hmin1, hRd1, hend1, hU1, hbal1, hbr⟩ :=
    placeBid_ok_inv hok
  have hrnd1 : rnd = rnd1 := by rw [hRd] at hRd1; exact Option.some.inj hRd1
  subst hrnd1
  have hu1 : user = user1 := by rw [hU] at hU1; exact Option.some.inj hU1
  subst hu1
  rcases hbr with ⟨eb1, hB1, dbF, hfz, hr⟩ | ⟨hBnone, -⟩
  · have heb1 : eb = eb1 := by rw [hB] at hB1; exact Option.some.inj hB1
    subst heb1
    obtain ⟨u2, hu2find, hu2bal, hdbF⟩ := freeze_ok_shape hfz
    have hu2 : user = u2 := by rw [hU] at hu2find; exact Option.some.inj hu2find
    subst hu2
    subst hr
    obtain ⟨hrbid, hrusers, hrbids, hrrounds⟩ := raiseResult_shape cfg now dbF rnd eb a
    have husers : dbF.users = updUsers
        (fun v => { v with balance := v.balance - a,
                           frozenBalance := v.frozenBalance + a }) uid db.users := by
      rw [hdbF]
    have hbids : dbF.bids = db.bids := by rw [hdbF]
    have hrounds : dbF.rounds = db.rounds := by rw [hdbF]
    refine ⟨hrbid, ?_, ?_, ?_, ?_⟩
    · rcases hrrounds with hro | hro
      · refine ⟨rnd, ?_, rfl⟩
        rw [hro, hrounds]
        exact hRd
      · rw [hro, hrounds,
          findActiveRoundOfAuction_updRounds
            (fun r => { r with endAt := rnd.endAt + cfg.antiSnipingExtension })
            (fun r => ⟨rfl, rfl⟩) rnd.roundId db.rounds aid,
          hRd]
        refine ⟨{ rnd with endAt := rnd.endAt + cfg.antiSnipingExtension }, ?_, rfl⟩
        simp
    · rw [hrbids, hbids,
        findActiveBid_updBids (fun b => { b with amount := eb.amount + a })
          (fun b => ⟨rfl, rfl, rfl, rfl⟩) eb.bidId db.bids aid rnd.roundId uid,
        hB]
      simp
    · rw [hrusers, husers,
        findUser_updUsers
          (fun v => { v with balance := v.balance - a,
                             frozenBalance := v.frozenBalance + a })
          (fun u => rfl) uid db.users uid,
        hU]
      simp only [Option.map_some']
      rw [if_pos (findUser_eq_id hU)]
    · rw [hrbids, hbids]
      simp [updBids]
  · rw [hB] at hBnone
    exact absurd hBnone (by simp)

/-- Folding `placeBid` over a list of raises adds the sum of the amounts to
the standing bid and moves exactly that sum from available to frozen. -/
lemma runRaises_spec (cfg : Config) (uid aid rid0 : Nat) :
    ∀ (ps : List (Nat × Int)) (db : DB) (rnd : RoundDoc) (eb : BidDoc) (user : UserDoc)
      (db' : DB),
    findActiveRoundOfAuction db.rounds aid = some rnd → rnd.roundId = rid0 →
    findActiveBid db.bids aid rid0 uid = some eb →
    findUser db.users uid = some user →
    runRaises cfg uid aid db ps = some db' →
    ∃ eb' user', findActiveBid db'.bids aid rid0 uid = some eb' ∧
      eb'.amount = eb.amount + (ps.map (fun p => p.2)).sum ∧
      findUser db'.users uid = some user' ∧
      user'.frozenBalance = user.frozenBalance + (ps.map (fun p => p.2)).sum ∧
      user'.balance = user.balance - (ps.map (fun p => p.2)).sum ∧
      db'.bids.length = db.bids.length := by
  intro ps
  induction ps with
  | nil =>
    intro db rnd eb user db' hRd hrid hB hU hrun
    have hdb : db = db' := by
      unfold runRaises at hrun
      exact Option.some.inj hrun
    subst hdb
    exact ⟨eb, user, hB, by simp, hU, by simp, by simp, rfl⟩
  | cons p ps ih =>
    intro db rnd eb user db' hRd hrid hB hU hrun
    unfold runRaises at hrun
    cases hok : placeBid cfg p.1 db uid aid p.2 with
    | error e =>
      simp only [hok] at hrun
      exact absurd hrun (by simp)
    | ok r =>
      simp only [hok] at hrun
      subst hrid
      obtain ⟨-, ⟨rnd2, hRd2, hrid2⟩, hB2, hU2, hlen2⟩ :=
        placeBid_raise_step hok hRd hB hU
      obtain ⟨eb', user', h1, h2, h3, h4, h5, h6⟩ :=
        ih r.1 rnd2 { eb with amount := eb.amount + p.2 }
          { user with balance := user.balance - p.2,
                      frozenBalance := user.frozenBalance + p.2 } db'
          hRd2 hrid2 hB2 hU2 hrun
      refine ⟨eb', user', h1, ?_, h3, ?_, ?_, by rw [h6, hlen2]⟩
      · have hred : ({ eb with amount := eb.amount + p.2 } : BidDoc).amount
            = eb.amount + p.2 := rfl
        rw [h2, hred]
        simp only [List.map_cons, List.sum_cons]
        ring
      · have hred : ({ user with balance := user.balance - p.2,
                                  frozenBalance := user.frozenBalance + p.2 }
              : UserDoc).frozenBalance
            = user.frozenBalance + p.2 := rfl
        rw [h4, hred]
        simp only [List.map_cons, List.sum_cons]
        ring
      · have hred : ({ user with balance := user.balance - p.2,
                                  frozenBalance := user.frozenBalance + p.2 }
              : UserDoc).balance
            = user.balance - p.2 := rfl
        rw [h5, hred]
        simp only [List.map_cons, List.sum_cons]
        ring

/-- C3: for a user already holding an active bid in the current round,
`placeBid` with amount `a` freezes exactly `a` (available `-= a`, frozen
`+= a`) and adds `a` to the existing bid's amount rather than replacing it
(no new bid document is created); after any accepted sequence of raises the
standing bid's amount and the user's frozen balance equal their initial
values plus the sum of all amounts bid in that round. -/
theorem placeBid_raise_additive (cfg : Config) (db : DB) (uid aid : Nat)
    (rnd : RoundDoc) (eb : BidDoc) (user : UserDoc)
    (hRd : findActiveRoundOfAuction db.rounds aid = some rnd)
    (hB : findActiveBid db.bids aid rnd.roundId uid = some eb)
    (hU : findUser db.users uid = some user) :
    (∀ now a r, placeBid cfg now db uid aid a = .ok r →
      r.2.1 = { eb with amount := eb.amount + a } ∧
      findActiveBid r.1.bids aid rnd.roundId uid =
        some { eb with amount := eb.amount + a } ∧
      findUser r.1.users uid =
        some { user with balance := user.balance - a,
                         frozenBalance := user.frozenBalance + a } ∧
      r.1.bids.length = db.bids.length) ∧
    (∀ ps db', runRaises cfg uid aid db ps = some db' →
      ∃ eb' user', findActiveBid db'.bids aid rnd.roundId uid = some eb' ∧
        eb'.amount = eb.amount + (ps.map (fun p => p.2)).sum ∧
        findUser db'.users uid = some user' ∧
        user'.frozenBalance = user.frozenBalance + (ps.map (fun p => p.2)).sum ∧
        user'.balance = user.balance - (ps.map (fun p => p.2)).sum ∧
        db'.bids.length = db.bids.length) := by
  constructor
  · intro now a r hok
    obtain ⟨h1, -, h3, h4, h5⟩ := placeBid_raise_step hok hRd hB hU
    exact ⟨h1, h3, h4, h5⟩
  · intro ps db' hrun
    exact runRaises_spec cfg uid aid rnd.roundId ps db rnd eb user db' hRd rfl hB hU hrun


/-- A concrete raise: user 10's standing bid of 100 raised by 50 becomes 150,
with 50 moved from available to frozen and no new bid document. -/
theorem placeBid_raise_additive_witness :
    wRaiseRes.2.1 = { wSetBidA with amount := wSetBidA.amount + 50 } ∧
    findActiveBid wRaiseRes.1.bids 1 wSetRound.roundId 10 =
      some { wSetBidA with amount := wSetBidA.amount + 50 } ∧
    findUser wRaiseRes.1.users 10 =
      some { wSetUserA with balance := wSetUserA.balance - 50,
                            frozenBalance := wSetUserA.frozenBalance + 50 } ∧
    wRaiseRes.1.bids.length = wSetDB.bids.length := by
  exact (placeBid_raise_additive wCfg wSetDB 10 1 wSetRound wSetBidA wSetUserA
    rfl rfl rfl).1 3000 50 wRaiseRes rfl

/-! ## C4 — settlement: winners prefix, itemNumber, consume and refunds -/

lemma findBid_eq_id {bs : List BidDoc} {k : Nat} {b : BidDoc}
    (h : findBid bs k = some b) : b.bidId = k := by
  induction bs with
  | nil => exact absurd h (by simp [findBid])
  | cons x bs ih =>
    unfold findBid at h
    split at h
    · next hc => injection h with h; rw [← h]; exact hc
    · exact ih h

lemma findBid_updBids_other (f : BidDoc → BidDoc) (hf : ∀ b, (f b).bidId = b.bidId)
    (tid : Nat) (bs : List BidDoc) (k : Nat) (hk : tid ≠ k) :
    findBid (updBids f tid bs) k = findBid bs k := by
  rw [findBid_updBids f hf tid bs k]
  cases hfb : findBid bs k with
  | none => rfl
  | some b0 =>
    simp only [Option.map_some']
    rw [if_neg (fun h => hk (by rw [← findBid_eq_id hfb, h]))]

lemma findUser_updUsers_other (f : UserDoc → UserDoc) (hf : ∀ u, (f u).userId = u.userId)
    (uid : Nat) (us : List UserDoc) (k : Nat) (hk : uid ≠ k) :
    findUser (updUsers f uid us) k = findUser us k := by
  rw [findUser_updUsers f hf uid us k]
  cases hfu : findUser us k with
  | none => rfl
  | some u0 =>
    simp only [Option.map_some']
    rw [if_neg (fun h => hk (by rw [← findUser_eq_id hfu, h]))]

/-- `BalanceService.processWin` applied to the state right after the bid was
marked `won`. -/
lemma processWin_after_mark (db : DB) (f : BidDoc → BidDoc) (tid uid : Nat)
    (a : Int) (aid bid : Nat) (u : UserDoc)
    (hu : findUser db.users uid = some u) (hfro : ¬ u.frozenBalance < a) :
    processWin { db with bids := updBids f tid db.bids } uid a aid bid =
      .ok { db with
        bids := updBids f tid db.bids,
        users := updUsers (fun v =>
          { v with frozenBalance := v.frozenBalance - a }) uid db.users,
        txs := db.txs ++ [⟨uid, TxType.win, a, some aid, some bid,
          u.balance, u.balance⟩] } := by
  unfold processWin
  dsimp only
  simp only [hu]
  rw [if_neg hfro]

/-- `BalanceService.refund` applied to the state right after the bid was
marked `refunded`. -/
lemma refund_after_mark (db : DB) (f : BidDoc → BidDoc) (tid uid : Nat)
    (a : Int) (aid bid : Nat) (u : UserDoc)
    (hu : findUser db.users uid = some u) (hfro : ¬ u.frozenBalance < a) :
    refund { db with bids := updBids f tid db.bids } uid a aid bid =
      .ok { db with
        bids := updBids f tid db.bids,
        users := updUsers (fun v =>
          { v with frozenBalance := v.frozenBalance - a,
                   balance := v.balance + a }) uid db.users,
        txs := db.txs ++ [⟨uid, TxType.refund, a, some aid, some bid,
          u.balance, u.balance + a⟩] } := by
  unfold refund
  dsimp only
  simp only [hu]
  rw [if_neg hfro]

/-- Full per-bid specification of the settlement loop: position `i + j` in
the ranked list wins while below `wc` (status `won`, `wonInRound`, sequential
`itemNumber`, frozen amount consumed), later positions are refunded (status
`refunded`, amount moved frozen → available); other bids and users are
untouched. -/
lemma settleLoop_spec (rnd : RoundDoc) (base : Int) (wc : Nat) :
    ∀ (bs : List BidDoc) (i : Nat) (db : DB),
    (∀ b ∈ bs, findBid db.bids b.bidId = some b) →
    bs.Pairwise (fun x y => x.bidId ≠ y.bidId) →
    bs.Pairwise (fun x y => x.userId ≠ y.userId) →
    (∀ b ∈ bs, ∃ u, findUser db.users b.userId = some u ∧
      ¬ u.frozenBalance < b.amount) →
    ∃ db1, settleLoop rnd base wc bs i db = .ok (db1, winSum wc bs i) ∧
      (∀ j (hj : j < bs.length),
        findBid db1.bids (bs.get ⟨j, hj⟩).bidId =
          some (if i + j < wc then
            { bs.get ⟨j, hj⟩ with
                status := BidStatus.won,
                wonInRound := some rnd.roundNumber,
                itemNumber := some (base + ((i + j : Nat) : Int)) }
          else { bs.get ⟨j, hj⟩ with status := BidStatus.refunded })) ∧
      (∀ j (hj : j < bs.length), ∀ u,
        findUser db.users (bs.get ⟨j, hj⟩).userId = some u →
        findUser db1.users (bs.get ⟨j, hj⟩).userId =
          some (if i + j < wc then
            { u with frozenBalance := u.frozenBalance - (bs.get ⟨j, hj⟩).amount }
          else
            { u with frozenBalance := u.frozenBalance - (bs.get ⟨j, hj⟩).amount,
                     balance := u.balance + (bs.get ⟨j, hj⟩).amount })) ∧
      (∀ k, (∀ b ∈ bs, b.bidId ≠ k) → findBid db1.bids k = findBid db.bids k) ∧
      (∀ k, (∀ b ∈ bs, b.userId ≠ k) → findUser db1.users k = findUser db.users k) := by
  intro bs
  induction bs with
  | nil =>
    intro i db hA hPB hPU hC
    refine ⟨db, rfl, ?_, ?_, fun k hk => rfl, fun k hk => rfl⟩
    · intro j hj
      exact absurd hj (by simp)
    · intro j hj
      exact absurd hj (by simp)
  | cons b bs ih =>
    intro i db hA hPB hPU hC
    have hmemb : b ∈ b :: bs := List.mem_cons_self b bs
    obtain ⟨u, hu, hfro⟩ := hC b hmemb
    obtain ⟨hPBh, hPBt⟩ := List.pairwise_cons.mp hPB
    obtain ⟨hPUh, hPUt⟩ := List.pairwise_cons.mp hPU
    by_cases hi : i < wc
    · have hA2 : ∀ b2 ∈ bs, findBid (updBids (fun bb =>
          { bb with status := BidStatus.won, wonInRound := some rnd.roundNumber,
                    itemNumber := some (base + (i : Int)) }) b.bidId db.bids) b2.bidId
          = some b2 := by
        intro b2 hb2
        rw [findBid_updBids_other (fun bb =>
            { bb with status := BidStatus.won, wonInRound := some rnd.roundNumber,
                      itemNumber := some (base + (i : Int)) })
          (fun bb => rfl) b.bidId db.bids b2.bidId (hPBh b2 hb2)]
        exact hA b2 (List.mem_cons_of_mem b hb2)
      have hC2 : ∀ b2 ∈ bs, ∃ u2, findUser (updUsers (fun v =>
          { v with frozenBalance := v.frozenBalance - b.amount }) b.userId db.users)
          b2.userId = some u2 ∧ ¬ u2.frozenBalance < b2.amount := by
        intro b2 hb2
        obtain ⟨u2, hu2, hf2⟩ := hC b2 (List.mem_cons_of_mem b hb2)
        refine ⟨u2, ?_, hf2⟩
        rw [findUser_updUsers_other (fun v =>
            { v with frozenBalance := v.frozenBalance - b.amount })
          (fun v => rfl) b.userId db.users b2.userId (hPUh b2 hb2)]
        exact hu2
      obtain ⟨db1, hok1, hbids1, husers1, huntb1, huntu1⟩ :=
        ih (i + 1)
          { db with
            bids := updBids (fun bb =>
              { bb with status := BidStatus.won, wonInRound := some rnd.roundNumber,
                        itemNumber := some (base + (i : Int)) }) b.bidId db.bids,
            users := updUsers (fun v =>
              { v with frozenBalance := v.frozenBalance - b.amount }) b.userId db.users,
            txs := db.txs ++ [⟨b.userId, TxType.win, b.amount, some b.auctionId,
              some b.bidId, u.balance, u.balance⟩] }
          hA2 hPBt hPUt hC2
      have hstep : settleLoop rnd base wc (b :: bs) i db
          = .ok (db1, winSum wc bs (i + 1) + b.amount) := by
        unfold settleLoop
        rw [if_pos hi]
        simp only [processWin_after_mark db (fun bb =>
            { bb with status := BidStatus.won, wonInRound := some rnd.roundNumber,
                      itemNumber := some (base + (i : Int)) })
          b.bidId b.userId b.amount b.auctionId b.bidId u hu hfro, hok1]
      refine ⟨db1, ?_, ?_, ?_, ?_, ?_⟩
      · rw [hstep]
        show _ = Except.ok (db1, winSum wc bs (i + 1) + (if i < wc then b.amount else 0))
        rw [if_pos hi]
      · intro j hj
        cases j with
        | zero =>
          rw [if_pos (show i + 0 < wc from hi)]
          show findBid db1.bids b.bidId = some
            { b with status := BidStatus.won, wonInRound := some rnd.roundNumber,
                     itemNumber := some (base + (i : Int)) }
          rw [huntb1 b.bidId (fun b2 hb2 => (hPBh b2 hb2).symm)]
          dsimp only
          rw [findBid_updBids (fun bb =>
              { bb with status := BidStatus.won, wonInRound := some rnd.roundNumber,
                        itemNumber := some (base + (i : Int)) })
            (fun bb => rfl) b.bidId db.bids b.bidId, hA b hmemb]
          simp
        | succ j2 =>
          have hj2 : j2 < bs.length := Nat.lt_of_succ_lt_succ hj
          have harith : i + (j2 + 1) = i + 1 + j2 := by omega
          rw [harith]
          exact hbids1 j2 hj2
      · intro j hj u0 hu0
        cases j with
        | zero =>
          have hu0' : findUser db.users b.userId = some u0 := hu0
          rw [hu] at hu0'
          have he : u = u0 := Option.some.inj hu0'
          subst he
          rw [if_pos (show i + 0 < wc from hi)]
          show findUser db1.users b.userId =
            some { u with frozenBalance := u.frozenBalance - b.amount }
          rw [huntu1 b.userId (fun b2 hb2 => (hPUh b2 hb2).symm)]
          dsimp only
          rw [findUser_updUsers (fun v =>
              { v with frozenBalance := v.frozenBalance - b.amount })
            (fun v => rfl) b.userId db.users b.userId, hu]
          simp only [Option.map_some']
          rw [if_pos (findUser_eq_id hu)]
        | succ j2 =>
          have hj2 : j2 < bs.length := Nat.lt_of_succ_lt_succ hj
          have harith : i + (j2 + 1) = i + 1 + j2 := by omega
          rw [harith]
          have hmem2 : bs.get ⟨j2, hj2⟩ ∈ bs := List.get_mem bs j2 hj2
          have htr : findUser (updUsers (fun v =>
              { v with frozenBalance := v.frozenBalance - b.amount }) b.userId db.users)
              (bs.get ⟨j2, hj2⟩).userId = some u0 := by
            rw [findUser_updUsers_other (fun v =>
                { v with frozenBalance := v.frozenBalance - b.amount })
              (fun v => rfl) b.userId db.users (bs.get ⟨j2, hj2⟩).userId
              (hPUh (bs.get ⟨j2, hj2⟩) hmem2)]
            exact hu0
          exact husers1 j2 hj2 u0 htr
      · intro k hk
        rw [huntb1 k (fun b2 hb2 => hk b2 (List.mem_cons_of_mem b hb2))]
        exact findBid_updBids_other (fun bb =>
            { bb with status := BidStatus.won, wonInRound := some rnd.roundNumber,
                      itemNumber := some (base + (i : Int)) })
          (fun bb => rfl) b.bidId db.bids k (hk b hmemb)
      · intro k hk
        rw [huntu1 k (fun b2 hb2 => hk b2 (List.mem_cons_of_mem b hb2))]
        exact findUser_updUsers_other (fun v =>
            { v with frozenBalance := v.frozenBalance - b.amount })
          (fun v => rfl) b.userId db.users k (hk b hmemb)
    · have hA2 : ∀ b2 ∈ bs, findBid (updBids
          (fun bb => { bb with status := BidStatus.refunded }) b.bidId db.bids) b2.bidId
          = some b2 := by
        intro b2 hb2
        rw [findBid_updBids_other (fun bb => { bb with status := BidStatus.refunded })
          (fun bb => rfl) b.bidId db.bids b2.bidId (hPBh b2 hb2)]
        exact hA b2 (List.mem_cons_of_mem b hb2)
      have hC2 : ∀ b2 ∈ bs, ∃ u2, findUser (updUsers (fun v =>
          { v with frozenBalance := v.frozenBalance - b.amount,
                   balance := v.balance + b.amount }) b.userId db.users)
          b2.userId = some u2 ∧ ¬ u2.frozenBalance < b2.amount := by
        intro b2 hb2
        obtain ⟨u2, hu2, hf2⟩ := hC b2 (List.mem_cons_of_mem b hb2)
        refine ⟨u2, ?_, hf2⟩
        rw [findUser_updUsers_other (fun v =>
            { v with frozenBalance := v.frozenBalance - b.amount,
                     balance := v.balance + b.amount })
          (fun v => rfl) b.userId db.users b2.userId (hPUh b2 hb2)]
        exact hu2
      obtain ⟨db1, hok1, hbids1, husers1, huntb1, huntu1⟩ :=
        ih (i + 1)
          { db with
            bids := updBids (fun bb => { bb with status := BidStatus.refunded })
              b.bidId db.bids,
            users := updUsers (fun v =>
              { v with frozenBalance := v.frozenBalance - b.amount,
                       balance := v.balance + b.amount }) b.userId db.users,
            txs := db.txs ++ [⟨b.userId, TxType.refund, b.amount, some b.auctionId,
              some b.bidId, u.balance, u.balance + b.amount⟩] }
          hA2 hPBt hPUt hC2
      have hstep : settleLoop rnd base wc (b :: bs) i db
          = .ok (db1, winSum wc bs (i + 1)) := by
        unfold settleLoop
        rw [if_neg hi]
        simp only [refund_after_mark db
          (fun bb => { bb with status := BidStatus.refunded })
          b.bidId b.userId b.amount b.auctionId b.bidId u hu hfro, hok1]
      refine ⟨db1, ?_, ?_, ?_, ?_, ?_⟩
      · rw [hstep]
        show _ = Except.ok (db1, winSum wc bs (i + 1) + (if i < wc then b.amount else 0))
        rw [if_neg hi, add_zero]
      · intro j hj
        cases j with
        | zero =>
          rw [if_neg (show ¬ i + 0 < wc from hi)]
          show findBid db1.bids b.bidId = some { b with status := BidStatus.refunded }
          rw [huntb1 b.bidId (fun b2 hb2 => (hPBh b2 hb2).symm)]
          dsimp only
          rw [findBid_updBids (fun bb => { bb with status := BidStatus.refunded })
            (fun bb => rfl) b.bidId db.bids b.bidId, hA b hmemb]
          simp
        | succ j2 =>
          have hj2 : j2 < bs.length := Nat.lt_of_succ_lt_succ hj
          have harith : i + (j2 + 1) = i + 1 + j2 := by omega
          rw [harith]
          exact hbids1 j2 hj2
      · intro j hj u0 hu0
        cases j with
        | zero =>
          have hu0' : findUser db.users b.userId = some u0 := hu0
          rw [hu] at hu0'
          have he : u = u0 := Option.some.inj hu0'
          subst he
          rw [if_neg (show ¬ i + 0 < wc from hi)]
          show findUser db1.users b.userId =
            some { u with frozenBalance := u.frozenBalance - b.amount,
                          balance := u.balance + b.amount }
          rw [huntu1 b.userId (fun b2 hb2 => (hPUh b2 hb2).symm)]
          dsimp only
          rw [findUser_updUsers (fun v =>
              { v with frozenBalance := v.frozenBalance - b.amount,
                       balance := v.balance + b.amount })
            (fun v => rfl) b.userId db.users b.userId, hu]
          simp only [Option.map_some']
          rw [if_pos (findUser_eq_id hu)]
        | succ j2 =>
          have hj2 : j2 < bs.length := Nat.lt_of_succ_lt_succ hj
          have harith : i + (j2 + 1) = i + 1 + j2 := by omega
          rw [harith]
          have hmem2 : bs.get ⟨j2, hj2⟩ ∈ bs := List.get_mem bs j2 hj2
          have htr : findUser (updUsers (fun v =>
              { v with frozenBalance := v.frozenBalance - b.amount,
                       balance := v.balance + b.amount }) b.userId db.users)
              (bs.get ⟨j2, hj2⟩).userId = some u0 := by
            rw [findUser_updUsers_other (fun v =>
                { v with frozenBalance := v.frozenBalance - b.amount,
                         balance := v.balance + b.amount })
              (fun v => rfl) b.userId db.users (bs.get ⟨j2, hj2⟩).userId
              (hPUh (bs.get ⟨j2, hj2⟩) hmem2)]
            exact hu0
          exact husers1 j2 hj2 u0 htr
      · intro k hk
        rw [huntb1 k (fun b2 hb2 => hk b2 (List.mem_cons_of_mem b hb2))]
        exact findBid_updBids_other (fun bb => { bb with status := BidStatus.refunded })
          (fun bb => rfl) b.bidId db.bids k (hk b hmemb)
      · intro k hk
        rw [huntu1 k (fun b2 hb2 => hk b2 (List.mem_cons_of_mem b hb2))]
        exact findUser_updUsers_other (fun v =>
            { v with frozenBalance := v.frozenBalance - b.amount,
                     balance := v.balance + b.amount })
          (fun v => rfl) b.userId db.users k (hk b hmemb)

/-- C4: a settled round with `W = min(winnersCount, b)` winners marks exactly
the first `W` bids of the `(amount DESC, createdAt ASC)` order as `won` with
`wonInRound = roundNumber` and `itemNumber = distributedItems + 1 + rank`,
consuming each winner's frozen amount; every later active bid is `refunded`
with its amount moved from frozen back to available. -/
theorem processRound_settlement (now : Nat) (db : DB) (rid : Nat) (rnd : RoundDoc)
    (auction : AuctionDoc)
    (hR : findActiveRoundById db.rounds rid = some rnd)
    (hA : findAuction db.auctions rnd.auctionId = some auction)
    (hbid : ∀ b ∈ sortBids (activeBidsOfRound db.bids rnd.roundId),
      findBid db.bids b.bidId = some b)
    (hpb : (sortBids (activeBidsOfRound db.bids rnd.roundId)).Pairwise
      (fun x y => x.bidId ≠ y.bidId))
    (hpu : (sortBids (activeBidsOfRound db.bids rnd.roundId)).Pairwise
      (fun x y => x.userId ≠ y.userId))
    (hfunds : ∀ b ∈ sortBids (activeBidsOfRound db.bids rnd.roundId),
      ∃ u, findUser db.users b.userId = some u ∧ ¬ u.frozenBalance < b.amount) :
    ∀ j (hj : j < (sortBids (activeBidsOfRound db.bids rnd.roundId)).length),
      (findBid (processRound now db rid).bids
          ((sortBids (activeBidsOfRound db.bids rnd.roundId)).get ⟨j, hj⟩).bidId =
        some (if j < min rnd.winnersCount
              (sortBids (activeBidsOfRound db.bids rnd.roundId)).length then
          { (sortBids (activeBidsOfRound db.bids rnd.roundId)).get ⟨j, hj⟩ with
              status := BidStatus.won,
              wonInRound := some rnd.roundNumber,
              itemNumber := some ((auction.distributedItems : Int) + 1 + (j : Int)) }
        else { (sortBids (activeBidsOfRound db.bids rnd.roundId)).get ⟨j, hj⟩ with
                 status := BidStatus.refunded })) ∧
      (∀ u, findUser db.users
          ((sortBids (activeBidsOfRound db.bids rnd.roundId)).get ⟨j, hj⟩).userId
          = some u →
        findUser (processRound now db rid).users
            ((sortBids (activeBidsOfRound db.bids rnd.roundId)).get ⟨j, hj⟩).userId =
          some (if j < min rnd.winnersCount
                (sortBids (activeBidsOfRound db.bids rnd.roundId)).length then
            { u with frozenBalance := u.frozenBalance -
                ((sortBids (activeBidsOfRound db.bids rnd.roundId)).get ⟨j, hj⟩).amount }
          else
            { u with frozenBalance := u.frozenBalance -
                ((sortBids (activeBidsOfRound db.bids rnd.roundId)).get ⟨j, hj⟩).amount,
                     balance := u.balance +
                ((sortBids (activeBidsOfRound db.bids rnd.roundId)).get
                  ⟨j, hj⟩).amount })) := by
  obtain ⟨db1, hS, hbids1, husers1, -, -⟩ :=
    settleLoop_spec rnd ((auction.distributedItems : Int) + 1)
      (min rnd.winnersCount (sortBids (activeBidsOfRound db.bids rnd.roundId)).length)
      (sortBids (activeBidsOfRound db.bids rnd.roundId)) 0
      (setRoundStatus db rid RoundStatus.processing)
      hbid hpb hpu hfunds
  obtain ⟨hPu, hPt, hPb, -, -⟩ := processRound_settle_ok now hR hA hS
  intro j hj
  have h0 : 0 + j = j := by omega
  constructor
  · rw [hPb]
    have hc := hbids1 j hj
    rw [h0] at hc
    exact hc
  · intro u hu
    have hc := husers1 j hj u hu
    rw [h0] at hc
    rw [hPu]
    exact hc

/-- A concrete settlement of the two-bid fixture: the higher bid (150 by
user 11) wins item 1 and its frozen amount is consumed; the lower bid (100
by user 10) is refunded to available. -/
theorem processRound_settlement_witness :
    findBid (processRound 10000 wSetDB 2).bids 21 =
      some ⟨21, 1, 2, 11, 150, BidStatus.won, some 1, some 1, 2000⟩ ∧
    findBid (processRound 10000 wSetDB 2).bids 20 =
      some ⟨20, 1, 2, 10, 100, BidStatus.refunded, none, none, 1000⟩ ∧
    findUser (processRound 10000 wSetDB 2).users 11 = some ⟨11, "b", 350, 0⟩ ∧
    findUser (processRound 10000 wSetDB 2).users 10 = some ⟨10, "a", 500, 0⟩ := by
  have hsort : sortBids (activeBidsOfRound wSetDB.bids wSetRound.roundId)
      = [wSetBidB, wSetBidA] := rfl
  have h := processRound_settlement 10000 wSetDB 2 wSetRound wSetAuction rfl rfl
    (by
      intro b hb
      rw [hsort] at hb
      simp only [List.mem_cons, List.not_mem_nil, or_false] at hb
      rcases hb with rfl | rfl
      · rfl
      · rfl)
    (by rw [hsort]; simp [wSetBidA, wSetBidB])
    (by rw [hsort]; simp [wSetBidA, wSetBidB])
    (by
      intro b hb
      rw [hsort] at hb
      simp only [List.mem_cons, List.not_mem_nil, or_false] at hb
      rcases hb with rfl | rfl
      · exact ⟨wSetUserB, rfl, by decide⟩
      · exact ⟨wSetUserA, rfl, by decide⟩)
  exact ⟨(h 0 (by decide)).1, (h 1 (by decide)).1,
    (h 0 (by decide)).2 wSetUserB rfl, (h 1 (by decide)).2 wSetUserA rfl⟩

end AuctionSys
